import Mathlib

/-!
# The `micro` plugin of protoc-gen-go (plimble/protobuf)

A shallow embedding of `protoc-gen-go/micro/micro.go`: the descriptor-to-binding
generator that prints, for every service of a schema file, a client (Request and
Publish methods), the handler types and the two subscription wirings
(QueueSubscribe and Subscribe).

Conventions of the embedding.

* Go strings are Lean strings.  Identifiers of a schema are ASCII, and on ASCII
  text `strings.ToLower` is `Char.toLower` applied to every character and the
  byte slices `s[:1]`, `s[1:]` are the first character and the remainder.
* The output buffer is the list of the lines printed so far, oldest first; one call
  of `P` appends one line.  Standard output is a second list of lines.
* A Go run-time panic (the slice `s[:1]` of an empty string) ends the run: a run is
  either `done` or `aborted`, and both carry the state reached.
* The services of the generator package used by the plugin (`CamelCase`,
  `TypeName`, `PrintComments`) and the package alias `microPkg` are fields of an
  environment `Env`; the theorems hold for every environment.
-/

namespace Micro

/-! ## Data model -/

/-- The method descriptor as read through its getters (`GetName`, `GetInputType`,
`GetOutputType`, `GetClientStreaming`, `GetServerStreaming`). -/
structure MethodDescriptorProto where
  name : String
  inputType : String
  outputType : String
  clientStreaming : Bool
  serverStreaming : Bool
  deriving DecidableEq

/-- The service descriptor: `GetName` and the `Method` slice, in declaration order. -/
structure ServiceDescriptorProto where
  name : String
  method : List MethodDescriptorProto
  deriving DecidableEq

/-- The file descriptor: `GetPackage` and the `Service` slice, in file order. -/
structure FileDescriptor where
  package : String
  service : List ServiceDescriptorProto
  deriving DecidableEq

/-- What the plugin takes from its surroundings: the package alias `microPkg` set by
`Init`, and the generator services `TypeName` (through `objectNamed`),
`CamelCase` and `PrintComments` (the comment lines printed for a path). -/
structure Env where
  microPkg : String
  typeName : String → String
  CamelCase : String → String
  comments : String → List String

/-- The state a run acts on: the output buffer written through `P` and the standard
output of the process, both as lists of lines, oldest first. -/
structure World where
  sink : List String
  stdout : List String
  deriving DecidableEq

/-- The outcome of a run: completed, or aborted by a panic; the state reached is
kept in both cases. -/
inductive Run where
  | done (w : World)
  | aborted (w : World)
  deriving DecidableEq

/-- The state a run ended in. -/
def Run.world : Run → World
  | Run.done w => w
  | Run.aborted w => w

/-- Whether the run completed. -/
def Run.completed : Run → Bool
  | Run.done _ => true
  | Run.aborted _ => false

/-- Sequencing of runs: the continuation is entered only after a completed run. -/
def Run.andThen (r : Run) (k : World → Run) : Run :=
  match r with
  | Run.done w => k w
  | Run.aborted w => Run.aborted w

/-! ## Primitives -/

/-- Modelled from the spec: `generator.P`, the injected line-printing primitive (its
source is not among the files): one call appends one line, the concatenation of its
arguments, to the output buffer. -/
def P (w : World) (args : List String) : World :=
  World.mk (w.sink ++ [String.join args]) w.stdout

/-- Modelled from the spec: `generator.PrintComments` (its source is not among the
files): appends the comment lines the schema attaches to `path`, none when there is
no comment. -/
def PrintComments (g : Env) (w : World) (path : String) : World :=
  World.mk (w.sink ++ g.comments path) w.stdout

/-- The call `fmt.Println` of one string: one line on standard output. -/
def Println (w : World) (s : String) : World :=
  World.mk w.sink (w.stdout ++ [s])

/-- The function `strings.ToLower` on ASCII text. -/
def ToLower (s : String) : String :=
  String.mk (s.data.map Char.toLower)

/-- The table `reservedClientName`: an empty map literal, so every lookup is false. -/
def reservedClientName (_methName : String) : Bool := false

/-- The function `unexport`: `strings.ToLower(s[:1]) + s[1:]`; the slice `s[:1]`
panics on the empty string (`none`). -/
def unexport (s : String) : Option String :=
  match s.data with
  | [] => none
  | c :: cs => some (ToLower (String.mk [c]) ++ String.mk cs)

/-! ## Signatures -/

/-- The function `generateClientRequestSignature`: the client-side Request
signature of a method. -/
def generateClientRequestSignature (g : Env) (servName : String)
    (method : MethodDescriptorProto) : String :=
  let origMethName := method.name
  let methName := g.CamelCase origMethName
  let methName := if reservedClientName methName then methName ++ "_" else methName
  let reqArg := "req *" ++ g.typeName method.inputType
  let reqArg := if method.clientStreaming then "" else reqArg
  let respName := "*" ++ g.typeName method.outputType
  let respName :=
    if method.serverStreaming || method.clientStreaming then
      servName ++ "_" ++ g.CamelCase origMethName ++ "Client"
    else respName
  (methName ++ "Request") ++ "(" ++ reqArg ++ ") (" ++ respName ++ ", error)"

/-- The function `generateClientPublishSignature`: the client-side Publish
signature of a method. -/
def generateClientPublishSignature (g : Env) (_servName : String)
    (method : MethodDescriptorProto) : String :=
  let origMethName := method.name
  let methName := g.CamelCase origMethName
  let methName := if reservedClientName methName then methName ++ "_" else methName
  let reqArg := "req *" ++ g.typeName method.inputType
  let reqArg := if method.clientStreaming then "" else reqArg
  (methName ++ "Publish") ++ "(" ++ reqArg ++ ") (error)"

/-- The function `generateServerSignature`: the handler-type declaration of a
method. -/
def generateServerSignature (g : Env) (_servName : String)
    (method : MethodDescriptorProto) : String :=
  let origMethName := method.name
  let methName := g.CamelCase origMethName
  let methName := if reservedClientName methName then methName ++ "_" else methName
  let reqArgs : List String := []
  let ret := "error"
  let reqArgs := reqArgs ++ ["*micro.Context"]
  let reqArgs :=
    if !method.clientStreaming then reqArgs ++ ["*" ++ g.typeName method.inputType]
    else reqArgs
  let reqArgs :=
    if !method.clientStreaming && !method.serverStreaming then
      reqArgs ++ ["*" ++ g.typeName method.outputType]
    else reqArgs
  "type " ++ methName ++ "Handler func(" ++ String.intercalate ", " reqArgs ++ ") " ++ ret

/-! ## Method emitters -/

/-- The function `generateClientPublishMethod`: the Publish method on the client
struct; the body is printed for a unary method only. -/
def generateClientPublishMethod (g : Env) (_reqServ servName _serviceDescVar : String)
    (method : MethodDescriptorProto) (_descExpr : String) (w : World) : Run :=
  let methName := g.CamelCase method.name
  match unexport servName with
  | none => Run.aborted w
  | some u =>
    let w := P w ["func (c *", u, "Client) ",
      generateClientPublishSignature g servName method, "\x7b"]
    if !method.serverStreaming && !method.clientStreaming then
      let w := P w ["return ", "c.c.Publish(c.prefix+\".", ToLower methName, "\", req)"]
      let w := P w ["\x7d"]
      let w := P w []
      Run.done w
    else
      Run.done w

/-- The function `generateClientRequestMethod`: the Request method on the client
struct; the body is printed for a unary method only. -/
def generateClientRequestMethod (g : Env) (_reqServ servName _serviceDescVar : String)
    (method : MethodDescriptorProto) (_descExpr : String) (w : World) : Run :=
  let methName := g.CamelCase method.name
  let outType := g.typeName method.outputType
  match unexport servName with
  | none => Run.aborted w
  | some u =>
    let w := P w ["func (c *", u, "Client) ",
      generateClientRequestSignature g servName method, "\x7b"]
    if !method.serverStreaming && !method.clientStreaming then
      let w := P w ["res := new(", outType, ")"]
      let w := P w ["err := ", "c.c.Request(c.prefix+\".", ToLower methName,
        "\", req, res, micro.DefaultTimeout)"]
      let w := P w ["if err != nil \x7b return nil, err \x7d"]
      let w := P w ["return res, nil"]
      let w := P w ["\x7d"]
      let w := P w []
      Run.done w
    else
      Run.done w

/-- The function `generateServerQueueSubscribeMethod`: the registration method of
the queue-grouped wiring; the body is printed for a unary method only. -/
def generateServerQueueSubscribeMethod (g : Env) (servName : String)
    (method : MethodDescriptorProto) (w : World) : Run :=
  let methName := g.CamelCase method.name
  let inType := g.typeName method.inputType
  let outType := g.typeName method.outputType
  let w := P w ["func (dq *", servName, "QueueSubscribe) ", methName, "(h ", methName,
    "Handler) \x7b"]
  if !method.serverStreaming && !method.clientStreaming then
    let w := P w ["subj := dq.prefix+\".", ToLower methName, "\""]
    let w := P w ["dq.m.QueueSubscribe(subj, subj, func(ctx *", g.microPkg,
      ".Context) error \x7b"]
    let w := P w ["req := new(", inType, ")"]
    let w := P w ["if err := ctx.Decode(ctx.Data, req); err != nil \x7b"]
    let w := P w ["return err"]
    let w := P w ["\x7d"]
    let w := P w []
    let w := P w ["res := new(", outType, ")"]
    let w := P w ["if err := h(ctx, req, res); err != nil \x7b"]
    let w := P w ["return err"]
    let w := P w ["\x7d"]
    let w := P w []
    let w := P w ["if ctx.Reply != \"\" \x7b"]
    let w := P w ["ctx.Publish(ctx.Reply, res)"]
    let w := P w ["\x7d"]
    let w := P w []
    let w := P w ["return nil"]
    let w := P w ["\x7d)"]
    let w := P w ["\x7d"]
    Run.done w
  else
    Run.done w

/-- The function `generateServerSubscribeMethod`: the registration method of the
broadcast wiring; the body is printed for a unary method only. -/
def generateServerSubscribeMethod (g : Env) (servName : String)
    (method : MethodDescriptorProto) (w : World) : Run :=
  let methName := g.CamelCase method.name
  let inType := g.typeName method.inputType
  let outType := g.typeName method.outputType
  let w := P w ["func (ds *", servName, "Subscribe) ", methName, "(h ", methName,
    "Handler) \x7b"]
  if !method.serverStreaming && !method.clientStreaming then
    let w := P w ["subj := ds.prefix+\".", ToLower methName, "\""]
    let w := P w ["ds.m.Subscribe(subj, func(ctx *", g.microPkg, ".Context) error \x7b"]
    let w := P w ["req := new(", inType, ")"]
    let w := P w ["if err := ctx.Decode(ctx.Data, req); err != nil \x7b"]
    let w := P w ["return err"]
    let w := P w ["\x7d"]
    let w := P w []
    let w := P w ["res := new(", outType, ")"]
    let w := P w ["if err := h(ctx, req, res); err != nil \x7b"]
    let w := P w ["return err"]
    let w := P w ["\x7d"]
    let w := P w []
    let w := P w ["if ctx.Reply != \"\" \x7b"]
    let w := P w ["ctx.Publish(ctx.Reply, res)"]
    let w := P w ["\x7d"]
    let w := P w []
    let w := P w ["return nil"]
    let w := P w ["\x7d)"]
    let w := P w ["\x7d"]
    Run.done w
  else
    Run.done w

/-! ## The service emitter and the driver -/

/-- The first loop of `generateService` (the client interface): for the method of
index `i`, its comment, its Request signature and its Publish signature. -/
def clientInterfaceLoop (g : Env) (path servName : String) :
    List MethodDescriptorProto → Nat → World → World
  | [], _, w => w
  | method :: rest, i, w =>
    let w := PrintComments g w (path ++ ",2," ++ toString i)
    let w := P w [generateClientRequestSignature g servName method]
    let w := P w [generateClientPublishSignature g servName method]
    clientInterfaceLoop g path servName rest (i + 1) w

/-- The second loop of `generateService` (the client method implementations), with
its counter `methodIndex`. -/
def clientMethodLoop (g : Env) (serviceName servName serviceDescVar : String) :
    List MethodDescriptorProto → Nat → World → Run
  | [], _, w => Run.done w
  | method :: rest, methodIndex, w =>
    let descExpr :=
      if !method.serverStreaming then
        "&" ++ serviceDescVar ++ ".Methods[" ++ toString methodIndex ++ "]"
      else ""
    let methodIndex := if !method.serverStreaming then methodIndex + 1 else methodIndex
    (generateClientRequestMethod g serviceName servName serviceDescVar method descExpr w).andThen
      fun w =>
    (generateClientPublishMethod g serviceName servName serviceDescVar method descExpr w).andThen
      fun w =>
    clientMethodLoop g serviceName servName serviceDescVar rest methodIndex w

/-- The third loop of `generateService`: one handler-type declaration per method. -/
def serverSignatureLoop (g : Env) (servName : String) :
    List MethodDescriptorProto → World → World
  | [], w => w
  | method :: rest, w =>
    serverSignatureLoop g servName rest (P w [generateServerSignature g servName method])

/-- The fourth loop of `generateService`: the QueueSubscribe registration methods. -/
def queueSubscribeLoop (g : Env) (servName : String) :
    List MethodDescriptorProto → World → Run
  | [], w => Run.done w
  | method :: rest, w =>
    (generateServerQueueSubscribeMethod g servName method w).andThen
      fun w => queueSubscribeLoop g servName rest w

/-- The fifth loop of `generateService`: the Subscribe registration methods. -/
def subscribeLoop (g : Env) (servName : String) :
    List MethodDescriptorProto → World → Run
  | [], w => Run.done w
  | method :: rest, w =>
    (generateServerSubscribeMethod g servName method w).andThen
      fun w => subscribeLoop g servName rest w

/-- The function `generateService`: all the code for one service. -/
def generateService (g : Env) (file : FileDescriptor) (service : ServiceDescriptorProto)
    (index : Nat) (w : World) : Run :=
  let path := "6," ++ toString index
  let origServName := service.name
  let serviceName := ToLower service.name
  let serviceName := if file.package ≠ "" then file.package else serviceName
  let servName := g.CamelCase origServName
  let w := P w []
  let w := P w ["// Client API for ", servName, " service"]
  let w := P w []
  let w := P w ["type ", servName, "Client interface \x7b"]
  let w := clientInterfaceLoop g path servName service.method 0 w
  let w := P w ["\x7d"]
  let w := P w []
  match unexport servName with
  | none => Run.aborted w
  | some u =>
    let w := P w ["type ", u, "Client struct \x7b"]
    let w := P w ["c ", g.microPkg, ".Client"]
    let w := P w ["prefix string"]
    let w := P w ["\x7d"]
    let w := P w []
    let w := P w ["func New", servName, "Client (prefix string, c ", g.microPkg, ".Client) ",
      servName, "Client \x7b"]
    match unexport servName with
    | none => Run.aborted w
    | some u =>
      let w := P w ["return &", u, "Client\x7b"]
      let w := P w ["c: c,"]
      let w := P w ["prefix: prefix,"]
      let w := P w ["\x7d"]
      let w := P w ["\x7d"]
      let w := P w []
      let serviceDescVar := "_" ++ servName ++ "_serviceDesc"
      (clientMethodLoop g serviceName servName serviceDescVar service.method 0 w).andThen
        fun w =>
      let w := P w ["// Server API for ", servName, " service"]
      let w := P w []
      let w := serverSignatureLoop g servName service.method w
      let w := P w []
      let w := P w ["type ", servName, "QueueSubscribe struct", "\x7b"]
      let w := P w ["m *", g.microPkg, ".Micro"]
      let w := P w ["prefix string"]
      let w := P w ["\x7d"]
      let w := P w []
      let w := P w ["func New", servName, "QueueSubscribe (prefix string, m *", g.microPkg,
        ".Micro) *", servName, "QueueSubscribe \x7b"]
      let w := P w ["return &", servName, "QueueSubscribe\x7b"]
      let w := P w ["m: m,"]
      let w := P w ["prefix: prefix,"]
      let w := P w ["\x7d"]
      let w := P w ["\x7d"]
      let w := P w []
      (queueSubscribeLoop g servName service.method w).andThen fun w =>
      let w := P w ["type ", servName, "Subscribe struct", "\x7b"]
      let w := P w ["m *", g.microPkg, ".Micro"]
      let w := P w ["prefix string"]
      let w := P w ["\x7d"]
      let w := P w []
      let w := P w ["func New", servName, "Subscribe (prefix string, m *", g.microPkg,
        ".Micro) *", servName, "Subscribe \x7b"]
      let w := P w ["return &", servName, "Subscribe\x7b"]
      let w := P w ["m: m,"]
      let w := P w ["prefix: prefix,"]
      let w := P w ["\x7d"]
      let w := P w ["\x7d"]
      let w := P w []
      subscribeLoop g servName service.method w

/-- The loop of `Generate`: `generateService` for every service, with its index. -/
def serviceLoop (g : Env) (file : FileDescriptor) :
    List ServiceDescriptorProto → Nat → World → Run
  | [], _, w => Run.done w
  | service :: rest, i, w =>
    (generateService g file service i w).andThen
      fun w => serviceLoop g file rest (i + 1) w

/-- The function `Generate`: the code for the services of a file. -/
def Generate (g : Env) (file : FileDescriptor) (w : World) : Run :=
  let w := Println w "@@@@@"
  if file.service.length = 0 then
    Run.done w
  else
    let w := P w ["// Reference imports to suppress errors if they are not otherwise used."]
    let w := P w []
    serviceLoop g file file.service 0 w

/-! ## The camel-casing rule of protoc-gen-go -/

/-- Modelled from the spec: the test `isASCIILower` used by `generator.CamelCase`
(the generator package is not among the source files): a letter `a` to `z`. -/
def isASCIILower (c : Char) : Bool := decide ('a' ≤ c) && decide (c ≤ 'z')

/-- Modelled from the spec: the test `isASCIIDigit` used by `generator.CamelCase`
(the generator package is not among the source files): a digit `0` to `9`. -/
def isASCIIDigit (c : Char) : Bool := decide ('0' ≤ c) && decide (c ≤ '9')

/-- Modelled from the spec: the look-ahead of `generator.CamelCase` (the generator
package is not among the source files): whether the next character exists and is a
lower-case ASCII letter. -/
def startsLower : List Char → Bool
  | [] => false
  | d :: _ => isASCIILower d

/-- Modelled from the spec: the word loop of `generator.CamelCase` (the fixed
camel-casing rule of the Descriptor Adapter; the generator package is not among the
source files).  Outside a word: an underscore before a lower-case letter is dropped,
a digit is copied, any other character starts a word and is copied with a lower-case
letter capitalised.  Inside a word (`inWord`) lower-case letters are copied; the
first other character ends the word. -/
def camelLoop : Bool → List Char → List Char
  | _, [] => []
  | inWord, c :: rest =>
    if inWord && isASCIILower c then c :: camelLoop true rest
    else if c == '_' && startsLower rest then camelLoop false rest
    else if isASCIIDigit c then c :: camelLoop false rest
    else (if isASCIILower c then c.toUpper else c) :: camelLoop true rest

/-- Modelled from the spec: `generator.CamelCase`, the fixed camel-casing rule of the
Descriptor Adapter (the generator package is not among the source files), as
protoc-gen-go defines it: a leading underscore becomes `X`, then the word loop. -/
def CamelCase (s : String) : String :=
  match s.data with
  | [] => ""
  | c :: rest =>
    if c == '_' then String.mk ('X' :: camelLoop false rest)
    else String.mk (camelLoop false (c :: rest))

/-- The environment of a schema whose type references are written as the Go names
they resolve to, without comments, with the package alias `micro` that `Init`
obtains when the name is free. -/
def protocEnv : Env :=
  Env.mk "micro" (fun s => s) CamelCase (fun _ => [])

/-- The empty state: nothing printed yet. -/
def World.empty : World := World.mk [] []

/-! ## Reading the emitted text -/

/-- The lines a run appended to the output buffer that held `before`. -/
def appended (before : World) (r : Run) : List String :=
  r.world.sink.drop before.sink.length

/-- The Go expression printed for a subject: the prefix field of the receiver
`recv`, `+`, and the string literal made of a dot and the suffix. -/
def subjectExpr (recv suffix : String) : String :=
  recv ++ ".prefix+\"." ++ suffix ++ "\""

/-- The value of the expression `subjectExpr recv suffix` in the generated program
when the prefix field of the receiver holds `pfx`: Go string concatenation. -/
def subjectValue (pfx suffix : String) : String :=
  pfx ++ "." ++ suffix

/-- Whether a method is unary: neither streaming flag is set. -/
def isUnary (method : MethodDescriptorProto) : Bool :=
  !method.serverStreaming && !method.clientStreaming

/-- The lines of the callback that both wirings print after the registration line,
down to the closing brace of the registration method. -/
def callbackLines (inType outType : String) : List String :=
  [ "req := new(" ++ inType ++ ")",
    "if err := ctx.Decode(ctx.Data, req); err != nil \x7b",
    "return err",
    "\x7d",
    "",
    "res := new(" ++ outType ++ ")",
    "if err := h(ctx, req, res); err != nil \x7b",
    "return err",
    "\x7d",
    "",
    "if ctx.Reply != \"\" \x7b",
    "ctx.Publish(ctx.Reply, res)",
    "\x7d",
    "",
    "return nil",
    "\x7d)",
    "\x7d" ]

/-- The lines an emitter prints when started on the empty state. -/
def linesOf (f : World → Run) : List String :=
  appended World.empty (f World.empty)

/-- The lines of the client interface loop: for the method of index `i`, its comment
lines, its Request signature and its Publish signature. -/
def interfaceLines (g : Env) (path servName : String) :
    List MethodDescriptorProto → Nat → List String
  | [], _ => []
  | method :: rest, i =>
    g.comments (path ++ ",2," ++ toString i) ++
      [generateClientRequestSignature g servName method,
       generateClientPublishSignature g servName method] ++
      interfaceLines g path servName rest (i + 1)

/-- The lines of the two client methods of one method: the Request method, then the
Publish method. -/
def clientMethodLines (g : Env) (servName : String) (method : MethodDescriptorProto) :
    List String :=
  linesOf (generateClientRequestMethod g "" servName "" method "") ++
    linesOf (generateClientPublishMethod g "" servName "" method "")

/-- The client section of a service: the comment, the interface, the struct named
`u ++ "Client"`, the constructor and the client methods. -/
def clientSectionLines (g : Env) (service : ServiceDescriptorProto) (index : Nat)
    (u : String) : List String :=
  [ "",
    "// Client API for " ++ g.CamelCase service.name ++ " service",
    "",
    "type " ++ g.CamelCase service.name ++ "Client interface \x7b" ] ++
  interfaceLines g ("6," ++ toString index) (g.CamelCase service.name) service.method 0 ++
  [ "\x7d",
    "",
    "type " ++ u ++ "Client struct \x7b",
    "c " ++ g.microPkg ++ ".Client",
    "prefix string",
    "\x7d",
    "",
    "func New" ++ g.CamelCase service.name ++ "Client (prefix string, c " ++ g.microPkg ++
      ".Client) " ++ g.CamelCase service.name ++ "Client \x7b",
    "return &" ++ u ++ "Client\x7b",
    "c: c,",
    "prefix: prefix,",
    "\x7d",
    "\x7d",
    "" ] ++
  service.method.flatMap (clientMethodLines g (g.CamelCase service.name))

/-- The handler section of a service: the comment and one handler-type declaration
per method, closed by a blank line. -/
def handlerSectionLines (g : Env) (service : ServiceDescriptorProto) : List String :=
  [ "// Server API for " ++ g.CamelCase service.name ++ " service", "" ] ++
  service.method.map (generateServerSignature g (g.CamelCase service.name)) ++
  [ "" ]

/-- The section of one wiring of a service (`kind` is `QueueSubscribe` or
`Subscribe`): the struct and the constructor; the registration methods follow it. -/
def wiringHeadLines (g : Env) (service : ServiceDescriptorProto) (kind : String) :
    List String :=
  [ "type " ++ g.CamelCase service.name ++ kind ++ " struct\x7b",
    "m *" ++ g.microPkg ++ ".Micro",
    "prefix string",
    "\x7d",
    "",
    "func New" ++ g.CamelCase service.name ++ kind ++ " (prefix string, m *" ++
      g.microPkg ++ ".Micro) *" ++ g.CamelCase service.name ++ kind ++ " \x7b",
    "return &" ++ g.CamelCase service.name ++ kind ++ "\x7b",
    "m: m,",
    "prefix: prefix,",
    "\x7d",
    "\x7d",
    "" ]

/-- The lines of a whole service, section after section. -/
def serviceLines (g : Env) (service : ServiceDescriptorProto) (index : Nat) (u : String) :
    List String :=
  clientSectionLines g service index u ++
  handlerSectionLines g service ++
  wiringHeadLines g service "QueueSubscribe" ++
  service.method.flatMap
    (fun method =>
      linesOf (generateServerQueueSubscribeMethod g (g.CamelCase service.name) method)) ++
  wiringHeadLines g service "Subscribe" ++
  service.method.flatMap
    (fun method =>
      linesOf (generateServerSubscribeMethod g (g.CamelCase service.name) method))

/-- The environment `g` with the package alias replaced by `a`: what `Init` leaves
when `RegisterUniquePackageName` hands out the alias `a`. -/
def withAlias (g : Env) (a : String) : Env :=
  Env.mk a g.typeName g.CamelCase g.comments

/-- The number of occurrences of the character `c` in a text given by its lines. -/
def countChar (c : Char) (lines : List String) : Nat :=
  (lines.map (fun line => line.data.count c)).sum

/-- The number of `{` minus the number of `}` in a text given by its lines. -/
def braceBalance (lines : List String) : Int :=
  (countChar '\x7b' lines : Int) - (countChar '\x7d' lines : Int)

/-- A string without brace characters. -/
def braceFree (s : String) : Prop :=
  '\x7b' ∉ s.data ∧ '\x7d' ∉ s.data

instance (s : String) : Decidable (braceFree s) := by
  unfold braceFree
  infer_instance

/-- The number of methods that are not unary. -/
def nonUnaryCount (methods : List MethodDescriptorProto) : Nat :=
  (methods.filter (fun method => !isUnary method)).length

/-- Whether the text `needle` occurs in the line. -/
def mentions (needle line : String) : Bool :=
  line.data.tails.any (fun rest => needle.data.isPrefixOf rest)

/-- The members of the runtime package that the generated text refers to. -/
def runtimeMembers : List String :=
  ["Client", "Micro", "Context", "DefaultTimeout"]

/-- Whether the line refers to a member of the runtime package through the qualifier
`q`: it contains `q.Client`, `q.Micro`, `q.Context` or `q.DefaultTimeout`. -/
def refersThrough (q line : String) : Bool :=
  runtimeMembers.any (fun member => mentions (q ++ "." ++ member) line)

/-- The lines of a service that refer to the runtime package through the alias
`microPkg`: the field of the client struct (micro.go:123), the client constructor
(129), the field and the constructor of the QueueSubscribe wiring (164, 169) and of
the Subscribe wiring (182, 187), and for every unary method the callback parameter of
the two registrations (302, 332). -/
def aliasReferences (g : Env) (service : ServiceDescriptorProto) : List String :=
  [ "c " ++ g.microPkg ++ ".Client",
    "func New" ++ g.CamelCase service.name ++ "Client (prefix string, c " ++ g.microPkg ++
      ".Client) " ++ g.CamelCase service.name ++ "Client \x7b",
    "m *" ++ g.microPkg ++ ".Micro",
    "func New" ++ g.CamelCase service.name ++ "QueueSubscribe (prefix string, m *" ++
      g.microPkg ++ ".Micro) *" ++ g.CamelCase service.name ++ "QueueSubscribe \x7b",
    "m *" ++ g.microPkg ++ ".Micro",
    "func New" ++ g.CamelCase service.name ++ "Subscribe (prefix string, m *" ++
      g.microPkg ++ ".Micro) *" ++ g.CamelCase service.name ++ "Subscribe \x7b" ] ++
  (service.method.filter isUnary).flatMap
    (fun _ =>
      [ "dq.m.QueueSubscribe(subj, subj, func(ctx *" ++ g.microPkg ++
          ".Context) error \x7b",
        "ds.m.Subscribe(subj, func(ctx *" ++ g.microPkg ++ ".Context) error \x7b" ])

/-- The lines of a service that refer to the runtime package through the literal
qualifier `micro`: for every method its handler type, whose first parameter is
`*micro.Context` (micro.go:283, 291), and for every unary method the Request call
with `micro.DefaultTimeout` (263). -/
def literalReferences (g : Env) (service : ServiceDescriptorProto) : List String :=
  service.method.map (generateServerSignature g (g.CamelCase service.name)) ++
  (service.method.filter isUnary).map
    (fun method =>
      "err := c.c.Request(c.prefix+\"." ++ ToLower (g.CamelCase method.name) ++
        "\", req, res, micro.DefaultTimeout)")

/-- The references of a service to the runtime package, each as the qualifier it
uses and the line that holds it. -/
def runtimeReferences (g : Env) (service : ServiceDescriptorProto) :
    List (String × String) :=
  (aliasReferences g service).map (fun line => (g.microPkg, line)) ++
  (literalReferences g service).map (fun line => ("micro", line))

/-- All references use one and the same qualifier. -/
def sameQualifier (refs : List (String × String)) : Prop :=
  ∀ r1 ∈ refs, ∀ r2 ∈ refs, r1.1 = r2.1

/-! ## Examples -/

/-- The unary method `SayHello(HelloRequest) returns (HelloReply)`. -/
def sayHello : MethodDescriptorProto :=
  MethodDescriptorProto.mk "SayHello" "HelloRequest" "HelloReply" false false

/-- The unary method `CreateOrder(OrderRequest) returns (OrderReply)`. -/
def createOrder : MethodDescriptorProto :=
  MethodDescriptorProto.mk "CreateOrder" "OrderRequest" "OrderReply" false false

/-- The unary method `say_hello(HelloRequest) returns (HelloReply)`, written in
snake case. -/
def sayHelloSnake : MethodDescriptorProto :=
  MethodDescriptorProto.mk "say_hello" "HelloRequest" "HelloReply" false false

/-- The unary method `Foo(FooRequest) returns (FooReply)`. -/
def fooMixed : MethodDescriptorProto :=
  MethodDescriptorProto.mk "Foo" "FooRequest" "FooReply" false false

/-- The unary method `FOO(FooRequest) returns (FooReply)`. -/
def fooUpper : MethodDescriptorProto :=
  MethodDescriptorProto.mk "FOO" "FooRequest" "FooReply" false false

/-- The method `Upload(stream Chunk) returns (Summary)`: client streaming only. -/
def upload : MethodDescriptorProto :=
  MethodDescriptorProto.mk "Upload" "Chunk" "Summary" true false

/-- The service `Greeter` with the single method `SayHello`. -/
def greeter : ServiceDescriptorProto :=
  ServiceDescriptorProto.mk "Greeter" [sayHello]

/-- A file of package `helloworld` holding the service `Greeter`. -/
def greeterFile : FileDescriptor :=
  FileDescriptor.mk "helloworld" [greeter]

/-- The method `ListFeatures(Rectangle) returns (stream Feature)`: server streaming
only. -/
def listFeatures : MethodDescriptorProto :=
  MethodDescriptorProto.mk "ListFeatures" "Rectangle" "Feature" false true

/-- The method `RouteChat(stream RouteNote) returns (stream RouteNote)`: streaming in
both directions. -/
def routeChat : MethodDescriptorProto :=
  MethodDescriptorProto.mk "RouteChat" "RouteNote" "RouteNote" true true

/-- The service `RouteGuide` with a unary method and the three streaming flavors. -/
def routeGuide : ServiceDescriptorProto :=
  ServiceDescriptorProto.mk "RouteGuide" [sayHello, listFeatures, upload, routeChat]

/-- A file of package `routeguide` holding the service `RouteGuide`. -/
def routeGuideFile : FileDescriptor :=
  FileDescriptor.mk "routeguide" [routeGuide]

/-- A service descriptor whose name is empty, with the method `SayHello`. -/
def unnamedService : ServiceDescriptorProto :=
  ServiceDescriptorProto.mk "" [sayHello]

/-- The service `Empty`, which declares no method. -/
def emptyService : ServiceDescriptorProto :=
  ServiceDescriptorProto.mk "Empty" []

/-- A file of package `helloworld` without services. -/
def noServiceFile : FileDescriptor :=
  FileDescriptor.mk "helloworld" []

/-- A file of package `helloworld` holding the service `Empty`. -/
def emptyServiceFile : FileDescriptor :=
  FileDescriptor.mk "helloworld" [emptyService]

/-! ## Lemmas on the primitives -/

theorem isUnary_iff (method : MethodDescriptorProto) :
    isUnary method = true ↔
      method.serverStreaming = false ∧ method.clientStreaming = false := by
  simp [isUnary]

theorem unexport_of_ne_empty (s : String) (h : s ≠ "") : ∃ u, unexport s = some u := by
  obtain ⟨l⟩ := s
  cases l with
  | nil => exact absurd rfl h
  | cons c cs => exact ⟨_, rfl⟩

theorem appended_done (w : World) (ls out : List String) :
    appended w (Run.done (World.mk (w.sink ++ ls) out)) = ls := by
  simp [appended, Run.world]

theorem append_left_cancel_string (a s t : String) (h : a ++ s = a ++ t) : s = t := by
  have h2 := congrArg String.data h
  simp only [String.data_append] at h2
  exact String.ext (List.append_cancel_left h2)

theorem append_right_cancel_string (a s t : String) (h : s ++ a = t ++ a) : s = t := by
  have h2 := congrArg String.data h
  simp only [String.data_append] at h2
  exact String.ext (List.append_cancel_right h2)

/-! ## What each method emitter prints -/

theorem requestMethod_unary (g : Env) (reqServ servName serviceDescVar descExpr u : String)
    (method : MethodDescriptorProto) (w : World)
    (hs : unexport servName = some u) (hu : isUnary method = true) :
    generateClientRequestMethod g reqServ servName serviceDescVar method descExpr w =
      Run.done (World.mk (w.sink ++
        [ "func (c *" ++ u ++ "Client) " ++
            generateClientRequestSignature g servName method ++ "\x7b",
          "res := new(" ++ g.typeName method.outputType ++ ")",
          "err := c.c.Request(c.prefix+\"." ++ ToLower (g.CamelCase method.name) ++
            "\", req, res, micro.DefaultTimeout)",
          "if err != nil \x7b return nil, err \x7d",
          "return res, nil",
          "\x7d",
          "" ]) w.stdout) := by
  obtain ⟨h1, h2⟩ := (isUnary_iff method).mp hu
  simp [generateClientRequestMethod, hs, h1, h2, P, String.join, String.ext_iff,
    List.append_assoc]

theorem requestMethod_streaming (g : Env) (reqServ servName serviceDescVar descExpr u : String)
    (method : MethodDescriptorProto) (w : World)
    (hs : unexport servName = some u) (hu : isUnary method = false) :
    generateClientRequestMethod g reqServ servName serviceDescVar method descExpr w =
      Run.done (World.mk (w.sink ++
        [ "func (c *" ++ u ++ "Client) " ++
            generateClientRequestSignature g servName method ++ "\x7b" ]) w.stdout) := by
  have h : (!method.serverStreaming && !method.clientStreaming) = false := hu
  simp [generateClientRequestMethod, hs, h, P, String.join, String.ext_iff,
    List.append_assoc]

theorem publishMethod_unary (g : Env) (reqServ servName serviceDescVar descExpr u : String)
    (method : MethodDescriptorProto) (w : World)
    (hs : unexport servName = some u) (hu : isUnary method = true) :
    generateClientPublishMethod g reqServ servName serviceDescVar method descExpr w =
      Run.done (World.mk (w.sink ++
        [ "func (c *" ++ u ++ "Client) " ++
            generateClientPublishSignature g servName method ++ "\x7b",
          "return c.c.Publish(c.prefix+\"." ++ ToLower (g.CamelCase method.name) ++
            "\", req)",
          "\x7d",
          "" ]) w.stdout) := by
  obtain ⟨h1, h2⟩ := (isUnary_iff method).mp hu
  simp [generateClientPublishMethod, hs, h1, h2, P, String.join, String.ext_iff,
    List.append_assoc]

theorem publishMethod_streaming (g : Env) (reqServ servName serviceDescVar descExpr u : String)
    (method : MethodDescriptorProto) (w : World)
    (hs : unexport servName = some u) (hu : isUnary method = false) :
    generateClientPublishMethod g reqServ servName serviceDescVar method descExpr w =
      Run.done (World.mk (w.sink ++
        [ "func (c *" ++ u ++ "Client) " ++
            generateClientPublishSignature g servName method ++ "\x7b" ]) w.stdout) := by
  have h : (!method.serverStreaming && !method.clientStreaming) = false := hu
  simp [generateClientPublishMethod, hs, h, P, String.join, String.ext_iff,
    List.append_assoc]

theorem queueSubscribe_unary (g : Env) (servName : String) (method : MethodDescriptorProto)
    (w : World) (hu : isUnary method = true) :
    generateServerQueueSubscribeMethod g servName method w =
      Run.done (World.mk (w.sink ++
        ([ "func (dq *" ++ servName ++ "QueueSubscribe) " ++ g.CamelCase method.name ++
             "(h " ++ g.CamelCase method.name ++ "Handler) \x7b",
           "subj := dq.prefix+\"." ++ ToLower (g.CamelCase method.name) ++ "\"",
           "dq.m.QueueSubscribe(subj, subj, func(ctx *" ++ g.microPkg ++
             ".Context) error \x7b" ] ++
          callbackLines (g.typeName method.inputType) (g.typeName method.outputType)))
        w.stdout) := by
  obtain ⟨h1, h2⟩ := (isUnary_iff method).mp hu
  simp [generateServerQueueSubscribeMethod, callbackLines, h1, h2, P, String.join,
    String.ext_iff, List.append_assoc]

theorem queueSubscribe_streaming (g : Env) (servName : String)
    (method : MethodDescriptorProto) (w : World) (hu : isUnary method = false) :
    generateServerQueueSubscribeMethod g servName method w =
      Run.done (World.mk (w.sink ++
        [ "func (dq *" ++ servName ++ "QueueSubscribe) " ++ g.CamelCase method.name ++
            "(h " ++ g.CamelCase method.name ++ "Handler) \x7b" ]) w.stdout) := by
  have h : (!method.serverStreaming && !method.clientStreaming) = false := hu
  simp [generateServerQueueSubscribeMethod, h, P, String.join, String.ext_iff,
    List.append_assoc]

theorem subscribe_unary (g : Env) (servName : String) (method : MethodDescriptorProto)
    (w : World) (hu : isUnary method = true) :
    generateServerSubscribeMethod g servName method w =
      Run.done (World.mk (w.sink ++
        ([ "func (ds *" ++ servName ++ "Subscribe) " ++ g.CamelCase method.name ++
             "(h " ++ g.CamelCase method.name ++ "Handler) \x7b",
           "subj := ds.prefix+\"." ++ ToLower (g.CamelCase method.name) ++ "\"",
           "ds.m.Subscribe(subj, func(ctx *" ++ g.microPkg ++ ".Context) error \x7b" ] ++
          callbackLines (g.typeName method.inputType) (g.typeName method.outputType)))
        w.stdout) := by
  obtain ⟨h1, h2⟩ := (isUnary_iff method).mp hu
  simp [generateServerSubscribeMethod, callbackLines, h1, h2, P, String.join,
    String.ext_iff, List.append_assoc]

theorem subscribe_streaming (g : Env) (servName : String)
    (method : MethodDescriptorProto) (w : World) (hu : isUnary method = false) :
    generateServerSubscribeMethod g servName method w =
      Run.done (World.mk (w.sink ++
        [ "func (ds *" ++ servName ++ "Subscribe) " ++ g.CamelCase method.name ++
            "(h " ++ g.CamelCase method.name ++ "Handler) \x7b" ]) w.stdout) := by
  have h : (!method.serverStreaming && !method.clientStreaming) = false := hu
  simp [generateServerSubscribeMethod, h, P, String.join, String.ext_iff,
    List.append_assoc]

/-! ## Subjects -/

/-- C1: for a unary method of a service (whose client struct name exists, i.e. the
CamelCased service name is not empty), the subject printed in the client Request
body, in the client Publish body, in the QueueSubscribe registration and in the
Subscribe registration is `<receiver>.prefix+".<s>"` with one and the same suffix
`s`, so that for every prefix the four address the same subject. -/
theorem subject_shared_by_client_and_server (g : Env)
    (reqServ servName serviceDescVar descExpr : String) (method : MethodDescriptorProto)
    (w : World) (hs : servName ≠ "") (hu : isUnary method = true) :
    ∃ s : String,
      (appended w (generateClientRequestMethod g reqServ servName serviceDescVar method
          descExpr w))[2]? =
        some ("err := c.c.Request(" ++ subjectExpr "c" s ++
          ", req, res, micro.DefaultTimeout)") ∧
      (appended w (generateClientPublishMethod g reqServ servName serviceDescVar method
          descExpr w))[1]? =
        some ("return c.c.Publish(" ++ subjectExpr "c" s ++ ", req)") ∧
      (appended w (generateServerQueueSubscribeMethod g servName method w))[1]? =
        some ("subj := " ++ subjectExpr "dq" s) ∧
      (appended w (generateServerQueueSubscribeMethod g servName method w))[2]? =
        some ("dq.m.QueueSubscribe(subj, subj, func(ctx *" ++ g.microPkg ++
          ".Context) error \x7b") ∧
      (appended w (generateServerSubscribeMethod g servName method w))[1]? =
        some ("subj := " ++ subjectExpr "ds" s) ∧
      (appended w (generateServerSubscribeMethod g servName method w))[2]? =
        some ("ds.m.Subscribe(subj, func(ctx *" ++ g.microPkg ++ ".Context) error \x7b") := by
  obtain ⟨u, hu1⟩ := unexport_of_ne_empty servName hs
  refine ⟨ToLower (g.CamelCase method.name), ?_, ?_, ?_, ?_, ?_, ?_⟩
  · rw [requestMethod_unary g reqServ servName serviceDescVar descExpr u method w hu1 hu,
      appended_done]
    simp [subjectExpr, String.ext_iff, List.append_assoc]
  · rw [publishMethod_unary g reqServ servName serviceDescVar descExpr u method w hu1 hu,
      appended_done]
    simp [subjectExpr, String.ext_iff, List.append_assoc]
  · rw [queueSubscribe_unary g servName method w hu, appended_done]
    simp [subjectExpr, String.ext_iff, List.append_assoc]
  · rw [queueSubscribe_unary g servName method w hu, appended_done]
    simp
  · rw [subscribe_unary g servName method w hu, appended_done]
    simp [subjectExpr, String.ext_iff, List.append_assoc]
  · rw [subscribe_unary g servName method w hu, appended_done]
    simp

/-- Witness of C1: the method `SayHello` of the service `Greeter`. -/
theorem subject_shared_by_client_and_server_witness :
    "Greeter" ≠ "" ∧ isUnary sayHello = true ∧
    ∃ s : String,
      (appended World.empty (generateClientRequestMethod protocEnv "helloworld" "Greeter"
          "_Greeter_serviceDesc" sayHello "&_Greeter_serviceDesc.Methods[0]"
          World.empty))[2]? =
        some ("err := c.c.Request(" ++ subjectExpr "c" s ++
          ", req, res, micro.DefaultTimeout)") ∧
      (appended World.empty (generateClientPublishMethod protocEnv "helloworld" "Greeter"
          "_Greeter_serviceDesc" sayHello "&_Greeter_serviceDesc.Methods[0]"
          World.empty))[1]? =
        some ("return c.c.Publish(" ++ subjectExpr "c" s ++ ", req)") ∧
      (appended World.empty
          (generateServerQueueSubscribeMethod protocEnv "Greeter" sayHello World.empty))[1]? =
        some ("subj := " ++ subjectExpr "dq" s) ∧
      (appended World.empty
          (generateServerQueueSubscribeMethod protocEnv "Greeter" sayHello World.empty))[2]? =
        some ("dq.m.QueueSubscribe(subj, subj, func(ctx *" ++ protocEnv.microPkg ++
          ".Context) error \x7b") ∧
      (appended World.empty
          (generateServerSubscribeMethod protocEnv "Greeter" sayHello World.empty))[1]? =
        some ("subj := " ++ subjectExpr "ds" s) ∧
      (appended World.empty
          (generateServerSubscribeMethod protocEnv "Greeter" sayHello World.empty))[2]? =
        some ("ds.m.Subscribe(subj, func(ctx *" ++ protocEnv.microPkg ++
          ".Context) error \x7b") :=
  ⟨by decide, by decide,
    subject_shared_by_client_and_server protocEnv "helloworld" "Greeter"
      "_Greeter_serviceDesc" "&_Greeter_serviceDesc.Methods[0]" sayHello World.empty
      (by decide) (by decide)⟩

/-- C2, counterexample: for the declared method name `say_hello` and the prefix
`greeter` the printed subject is `greeter.sayhello` (the CamelCased name
`SayHello`, lower-cased), not `greeter.say_hello` (the declared name, lower-cased). -/
theorem subject_of_snake_case_name :
    isUnary sayHelloSnake = true ∧
    (appended World.empty
        (generateServerQueueSubscribeMethod protocEnv "Greeter" sayHelloSnake World.empty))[1]? =
      some ("subj := " ++ subjectExpr "dq" "sayhello") ∧
    (appended World.empty
        (generateServerQueueSubscribeMethod protocEnv "Greeter" sayHelloSnake World.empty))[1]? ≠
      some ("subj := " ++ subjectExpr "dq" (ToLower sayHelloSnake.name)) ∧
    subjectValue "greeter" "sayhello" = "greeter.sayhello" ∧
    "greeter" ++ "." ++ ToLower sayHelloSnake.name = "greeter.say_hello" ∧
    subjectValue "greeter" "sayhello" ≠ "greeter" ++ "." ++ ToLower sayHelloSnake.name := by
  decide

/-- C2, amended: for every prefix and every unary method with declared name `n`, the
subject printed by the four emitters is the prefix, a dot, and the lower-cased
CamelCased name `ToLower (CamelCase n)`; it is the lower-cased declared name
whenever camel-casing leaves the name unchanged, as for `CreateOrder` with prefix
`orders` (`orders.createorder`) and `SayHello` with prefix `greeter`
(`greeter.sayhello`). -/
theorem subject_is_lowercased_camel_name (g : Env)
    (reqServ servName serviceDescVar descExpr pfx : String)
    (method : MethodDescriptorProto) (w : World)
    (hs : servName ≠ "") (hu : isUnary method = true) :
    ((appended w (generateClientRequestMethod g reqServ servName serviceDescVar method
          descExpr w))[2]? =
        some ("err := c.c.Request(" ++
          subjectExpr "c" (ToLower (g.CamelCase method.name)) ++
          ", req, res, micro.DefaultTimeout)") ∧
      (appended w (generateClientPublishMethod g reqServ servName serviceDescVar method
          descExpr w))[1]? =
        some ("return c.c.Publish(" ++
          subjectExpr "c" (ToLower (g.CamelCase method.name)) ++ ", req)") ∧
      (appended w (generateServerQueueSubscribeMethod g servName method w))[1]? =
        some ("subj := " ++ subjectExpr "dq" (ToLower (g.CamelCase method.name))) ∧
      (appended w (generateServerSubscribeMethod g servName method w))[1]? =
        some ("subj := " ++ subjectExpr "ds" (ToLower (g.CamelCase method.name)))) ∧
    subjectValue pfx (ToLower (g.CamelCase method.name)) =
      pfx ++ "." ++ ToLower (g.CamelCase method.name) ∧
    (g.CamelCase method.name = method.name →
      subjectValue pfx (ToLower (g.CamelCase method.name)) =
        pfx ++ "." ++ ToLower method.name) ∧
    subjectValue "orders" (ToLower (protocEnv.CamelCase createOrder.name)) =
      "orders.createorder" ∧
    subjectValue "greeter" (ToLower (protocEnv.CamelCase sayHello.name)) =
      "greeter.sayhello" := by
  obtain ⟨u, hu1⟩ := unexport_of_ne_empty servName hs
  refine ⟨⟨?_, ?_, ?_, ?_⟩, rfl, ?_, by decide, by decide⟩
  · rw [requestMethod_unary g reqServ servName serviceDescVar descExpr u method w hu1 hu,
      appended_done]
    simp [subjectExpr, String.ext_iff, List.append_assoc]
  · rw [publishMethod_unary g reqServ servName serviceDescVar descExpr u method w hu1 hu,
      appended_done]
    simp [subjectExpr, String.ext_iff, List.append_assoc]
  · rw [queueSubscribe_unary g servName method w hu, appended_done]
    simp [subjectExpr, String.ext_iff, List.append_assoc]
  · rw [subscribe_unary g servName method w hu, appended_done]
    simp [subjectExpr, String.ext_iff, List.append_assoc]
  · intro h
    rw [h]
    rfl

/-- Witness of C2, amended: the method `say_hello` of the service `Greeter` with the
prefix `greeter`. -/
theorem subject_is_lowercased_camel_name_witness :
    "Greeter" ≠ "" ∧ isUnary sayHelloSnake = true ∧
    (appended World.empty
        (generateServerQueueSubscribeMethod protocEnv "Greeter" sayHelloSnake World.empty))[1]? =
      some ("subj := " ++ subjectExpr "dq" (ToLower (protocEnv.CamelCase sayHelloSnake.name))) ∧
    subjectValue "greeter" (ToLower (protocEnv.CamelCase sayHelloSnake.name)) =
      "greeter" ++ "." ++ ToLower (protocEnv.CamelCase sayHelloSnake.name) :=
  ⟨by decide, by decide,
    (subject_is_lowercased_camel_name protocEnv "helloworld" "Greeter"
      "_Greeter_serviceDesc" "&_Greeter_serviceDesc.Methods[0]" "greeter" sayHelloSnake
      World.empty (by decide) (by decide)).1.2.2.1,
    (subject_is_lowercased_camel_name protocEnv "helloworld" "Greeter"
      "_Greeter_serviceDesc" "&_Greeter_serviceDesc.Methods[0]" "greeter" sayHelloSnake
      World.empty (by decide) (by decide)).2.1⟩

/-- C3, counterexample: the methods `Foo` and `FOO` of one service have distinct
declared names and distinct Go names, yet the same subject expression, hence for the
prefix `orders` the same subject and the same queue-subscribe group name. -/
theorem queue_groups_of_Foo_and_FOO_collide :
    fooMixed.name ≠ fooUpper.name ∧
    protocEnv.CamelCase fooMixed.name ≠ protocEnv.CamelCase fooUpper.name ∧
    isUnary fooMixed = true ∧ isUnary fooUpper = true ∧
    (appended World.empty
        (generateServerQueueSubscribeMethod protocEnv "Orders" fooMixed World.empty))[1]? =
      some ("subj := " ++ subjectExpr "dq" "foo") ∧
    (appended World.empty
        (generateServerQueueSubscribeMethod protocEnv "Orders" fooUpper World.empty))[1]? =
      some ("subj := " ++ subjectExpr "dq" "foo") ∧
    (appended World.empty
        (generateServerQueueSubscribeMethod protocEnv "Orders" fooMixed World.empty))[2]? =
      some "dq.m.QueueSubscribe(subj, subj, func(ctx *micro.Context) error \x7b" ∧
    (appended World.empty
        (generateServerQueueSubscribeMethod protocEnv "Orders" fooUpper World.empty))[2]? =
      some "dq.m.QueueSubscribe(subj, subj, func(ctx *micro.Context) error \x7b" ∧
    subjectValue "orders" (ToLower (protocEnv.CamelCase fooMixed.name)) =
      subjectValue "orders" (ToLower (protocEnv.CamelCase fooUpper.name)) := by
  decide

/-- C3, amended: for every two unary methods of a service, the queue-subscribe group
names (equal to their subjects) are distinct, for every prefix, exactly when
the lower-cased CamelCased names of the two methods are distinct. -/
theorem queue_groups_distinct_iff (g : Env) (servName pfx : String)
    (m1 m2 : MethodDescriptorProto) (w : World)
    (h1 : isUnary m1 = true) (h2 : isUnary m2 = true) :
    ((appended w (generateServerQueueSubscribeMethod g servName m1 w))[1]? ≠
        (appended w (generateServerQueueSubscribeMethod g servName m2 w))[1]? ↔
      ToLower (g.CamelCase m1.name) ≠ ToLower (g.CamelCase m2.name)) ∧
    (subjectValue pfx (ToLower (g.CamelCase m1.name)) ≠
        subjectValue pfx (ToLower (g.CamelCase m2.name)) ↔
      ToLower (g.CamelCase m1.name) ≠ ToLower (g.CamelCase m2.name)) ∧
    (appended w (generateServerQueueSubscribeMethod g servName m1 w))[2]? =
      some ("dq.m.QueueSubscribe(subj, subj, func(ctx *" ++ g.microPkg ++
        ".Context) error \x7b") ∧
    (appended w (generateServerQueueSubscribeMethod g servName m2 w))[2]? =
      some ("dq.m.QueueSubscribe(subj, subj, func(ctx *" ++ g.microPkg ++
        ".Context) error \x7b") := by
  rw [queueSubscribe_unary g servName m1 w h1, queueSubscribe_unary g servName m2 w h2,
    appended_done, appended_done]
  refine ⟨?_, ?_, by simp, by simp⟩
  · apply not_congr
    constructor
    · intro h
      have h3 : "subj := dq.prefix+\"." ++ ToLower (g.CamelCase m1.name) ++ "\"" =
          "subj := dq.prefix+\"." ++ ToLower (g.CamelCase m2.name) ++ "\"" := by
        simpa using h
      exact append_left_cancel_string _ _ _ (append_right_cancel_string _ _ _ h3)
    · intro h
      simp [h]
  · apply not_congr
    constructor
    · intro h
      unfold subjectValue at h
      rw [String.append_assoc, String.append_assoc] at h
      exact append_left_cancel_string _ _ _ (append_left_cancel_string _ _ _ h)
    · intro h
      rw [h]

/-- Witness of C3, amended: the methods `SayHello` and `CreateOrder`. -/
theorem queue_groups_distinct_iff_witness :
    isUnary sayHello = true ∧ isUnary createOrder = true ∧
    ((appended World.empty
          (generateServerQueueSubscribeMethod protocEnv "Orders" sayHello World.empty))[1]? ≠
        (appended World.empty
          (generateServerQueueSubscribeMethod protocEnv "Orders" createOrder World.empty))[1]? ↔
      ToLower (protocEnv.CamelCase sayHello.name) ≠
        ToLower (protocEnv.CamelCase createOrder.name)) :=
  ⟨by decide, by decide,
    (queue_groups_distinct_iff protocEnv "Orders" "orders" sayHello createOrder World.empty
      (by decide) (by decide)).1⟩

/-- C4: for every unary method, the registration printed by
`generateServerQueueSubscribeMethod` passes one and the same expression `e` (the
variable `subj`, bound on the line before to the subject) as the subject argument
and as the queue-group argument of `QueueSubscribe`. -/
theorem queue_group_argument_is_subject (g : Env) (servName : String)
    (method : MethodDescriptorProto) (w : World) (hu : isUnary method = true) :
    ∃ e : String,
      (generateServerQueueSubscribeMethod g servName method w).completed = true ∧
      (appended w (generateServerQueueSubscribeMethod g servName method w))[1]? =
        some (e ++ " := " ++ subjectExpr "dq" (ToLower (g.CamelCase method.name))) ∧
      (appended w (generateServerQueueSubscribeMethod g servName method w))[2]? =
        some ("dq.m.QueueSubscribe(" ++ e ++ ", " ++ e ++ ", func(ctx *" ++ g.microPkg ++
          ".Context) error \x7b") := by
  refine ⟨"subj", ?_, ?_, ?_⟩
  · rw [queueSubscribe_unary g servName method w hu]
    rfl
  · rw [queueSubscribe_unary g servName method w hu, appended_done]
    simp [subjectExpr, String.ext_iff, List.append_assoc]
  · rw [queueSubscribe_unary g servName method w hu, appended_done]
    simp [String.ext_iff, List.append_assoc]

/-- Witness of C4: the method `SayHello` of the service `Greeter`. -/
theorem queue_group_argument_is_subject_witness :
    isUnary sayHello = true ∧
    ∃ e : String,
      (generateServerQueueSubscribeMethod protocEnv "Greeter" sayHello
        World.empty).completed = true ∧
      (appended World.empty
          (generateServerQueueSubscribeMethod protocEnv "Greeter" sayHello World.empty))[1]? =
        some (e ++ " := " ++ subjectExpr "dq" (ToLower (protocEnv.CamelCase sayHello.name))) ∧
      (appended World.empty
          (generateServerQueueSubscribeMethod protocEnv "Greeter" sayHello World.empty))[2]? =
        some ("dq.m.QueueSubscribe(" ++ e ++ ", " ++ e ++ ", func(ctx *" ++
          protocEnv.microPkg ++ ".Context) error \x7b") :=
  ⟨by decide,
    queue_group_argument_is_subject protocEnv "Greeter" sayHello World.empty (by decide)⟩

/-! ## Signatures of unary methods -/

/-- C5: for every unary method with CamelCased name `N`, resolved input type `In` and
resolved output type `Out`, `generateClientRequestSignature` returns exactly
`NRequest(req *In) (*Out, error)` and `generateClientPublishSignature` returns
exactly `NPublish(req *In) (error)`. -/
theorem unary_client_signatures (g : Env) (servName : String)
    (method : MethodDescriptorProto) (hu : isUnary method = true) :
    generateClientRequestSignature g servName method =
        g.CamelCase method.name ++ "Request(req *" ++ g.typeName method.inputType ++
          ") (*" ++ g.typeName method.outputType ++ ", error)" ∧
    generateClientPublishSignature g servName method =
        g.CamelCase method.name ++ "Publish(req *" ++ g.typeName method.inputType ++
          ") (error)" := by
  obtain ⟨h1, h2⟩ := (isUnary_iff method).mp hu
  constructor
  · simp [generateClientRequestSignature, reservedClientName, h1, h2, String.ext_iff,
      List.append_assoc]
  · simp [generateClientPublishSignature, reservedClientName, h2, String.ext_iff,
      List.append_assoc]

/-- Witness of C5: the method `SayHello`, with the signatures written out. -/
theorem unary_client_signatures_witness :
    isUnary sayHello = true ∧
    (generateClientRequestSignature protocEnv "Greeter" sayHello =
        protocEnv.CamelCase sayHello.name ++ "Request(req *" ++
          protocEnv.typeName sayHello.inputType ++ ") (*" ++
          protocEnv.typeName sayHello.outputType ++ ", error)" ∧
      generateClientPublishSignature protocEnv "Greeter" sayHello =
        protocEnv.CamelCase sayHello.name ++ "Publish(req *" ++
          protocEnv.typeName sayHello.inputType ++ ") (error)") ∧
    generateClientRequestSignature protocEnv "Greeter" sayHello =
      "SayHelloRequest(req *HelloRequest) (*HelloReply, error)" ∧
    generateClientPublishSignature protocEnv "Greeter" sayHello =
      "SayHelloPublish(req *HelloRequest) (error)" :=
  ⟨by decide, unary_client_signatures protocEnv "Greeter" sayHello (by decide),
    by decide, by decide⟩

/-! ## Bodies of unary methods -/

/-- C6: for every unary method (of a service whose client struct name exists), the
Request method printed on the client struct is its header followed by exactly:
`res := new(Out)`; the call of the runtime Request primitive with the subject,
`req`, `res` and the default timeout constant; `if err != nil { return nil, err }`;
`return res, nil`; the closing brace (and a blank line after it).  The Publish method
is its header followed by exactly the single `return c.c.Publish(subject, req)` and
the closing brace (and a blank line after it). -/
theorem unary_client_bodies (g : Env) (reqServ servName serviceDescVar descExpr : String)
    (method : MethodDescriptorProto) (w : World)
    (hs : servName ≠ "") (hu : isUnary method = true) :
    ∃ u : String, unexport servName = some u ∧
      generateClientRequestMethod g reqServ servName serviceDescVar method descExpr w =
        Run.done (World.mk (w.sink ++
          [ "func (c *" ++ u ++ "Client) " ++
              generateClientRequestSignature g servName method ++ "\x7b",
            "res := new(" ++ g.typeName method.outputType ++ ")",
            "err := c.c.Request(" ++ subjectExpr "c" (ToLower (g.CamelCase method.name)) ++
              ", req, res, micro.DefaultTimeout)",
            "if err != nil \x7b return nil, err \x7d",
            "return res, nil",
            "\x7d",
            "" ]) w.stdout) ∧
      generateClientPublishMethod g reqServ servName serviceDescVar method descExpr w =
        Run.done (World.mk (w.sink ++
          [ "func (c *" ++ u ++ "Client) " ++
              generateClientPublishSignature g servName method ++ "\x7b",
            "return c.c.Publish(" ++ subjectExpr "c" (ToLower (g.CamelCase method.name)) ++
              ", req)",
            "\x7d",
            "" ]) w.stdout) := by
  obtain ⟨u, hu1⟩ := unexport_of_ne_empty servName hs
  refine ⟨u, hu1, ?_, ?_⟩
  · rw [requestMethod_unary g reqServ servName serviceDescVar descExpr u method w hu1 hu]
    simp [subjectExpr, String.ext_iff, List.append_assoc]
  · rw [publishMethod_unary g reqServ servName serviceDescVar descExpr u method w hu1 hu]
    simp [subjectExpr, String.ext_iff, List.append_assoc]

/-- Witness of C6: the method `SayHello` of the service `Greeter`, printed into the
empty buffer. -/
theorem unary_client_bodies_witness :
    "Greeter" ≠ "" ∧ isUnary sayHello = true ∧
    (generateClientRequestMethod protocEnv "helloworld" "Greeter" "_Greeter_serviceDesc"
        sayHello "&_Greeter_serviceDesc.Methods[0]" World.empty =
      Run.done (World.mk
        [ "func (c *greeterClient) SayHelloRequest(req *HelloRequest) (*HelloReply, error)\x7b",
          "res := new(HelloReply)",
          "err := c.c.Request(c.prefix+\".sayhello\", req, res, micro.DefaultTimeout)",
          "if err != nil \x7b return nil, err \x7d",
          "return res, nil",
          "\x7d",
          "" ] [])) ∧
    (generateClientPublishMethod protocEnv "helloworld" "Greeter" "_Greeter_serviceDesc"
        sayHello "&_Greeter_serviceDesc.Methods[0]" World.empty =
      Run.done (World.mk
        [ "func (c *greeterClient) SayHelloPublish(req *HelloRequest) (error)\x7b",
          "return c.c.Publish(c.prefix+\".sayhello\", req)",
          "\x7d",
          "" ] [])) := by
  obtain ⟨u, h0, h1, h2⟩ := unary_client_bodies protocEnv "helloworld" "Greeter"
    "_Greeter_serviceDesc" "&_Greeter_serviceDesc.Methods[0]" sayHello World.empty
    (by decide) (by decide)
  have hu : u = "greeter" := by
    have h3 : unexport "Greeter" = some "greeter" := by decide
    rw [h3] at h0
    exact (Option.some.inj h0).symm
  subst hu
  refine ⟨by decide, by decide, ?_, ?_⟩
  · rw [h1]
    decide
  · rw [h2]
    decide

/-! ## The registration methods -/

/-- C7: for every unary method, both registration methods complete and print, after
the header, the subject line and the registration line, the fixed callback: allocate
the request; decode the payload into it and `return err` on failure; allocate the
response; call `h(ctx, req, res)` and `return err` on failure; publish the response
to `ctx.Reply` inside the guard `if ctx.Reply != ""`; `return nil`.  Among the
printed lines `return err` stands at positions 5 and 10 only, the guard at position
13 only and the publish line at position 14 only: both `return err` lines precede
the single publish line. -/
theorem callback_pipeline (g : Env) (servName : String) (method : MethodDescriptorProto)
    (w : World) (hu : isUnary method = true) :
    ∀ r ∈ [generateServerQueueSubscribeMethod g servName method w,
           generateServerSubscribeMethod g servName method w],
      r.completed = true ∧
      (appended w r).drop 3 =
        [ "req := new(" ++ g.typeName method.inputType ++ ")",
          "if err := ctx.Decode(ctx.Data, req); err != nil \x7b",
          "return err",
          "\x7d",
          "",
          "res := new(" ++ g.typeName method.outputType ++ ")",
          "if err := h(ctx, req, res); err != nil \x7b",
          "return err",
          "\x7d",
          "",
          "if ctx.Reply != \"\" \x7b",
          "ctx.Publish(ctx.Reply, res)",
          "\x7d",
          "",
          "return nil",
          "\x7d)",
          "\x7d" ] ∧
      List.indexesOf "return err" (appended w r) = [5, 10] ∧
      List.indexesOf "if ctx.Reply != \"\" \x7b" (appended w r) = [13] ∧
      List.indexesOf "ctx.Publish(ctx.Reply, res)" (appended w r) = [14] := by
  intro r hr
  simp only [List.mem_cons, List.mem_singleton, List.not_mem_nil, or_false] at hr
  rcases hr with hr | hr
  · subst hr
    rw [queueSubscribe_unary g servName method w hu, appended_done]
    refine ⟨rfl, ?_, ?_, ?_, ?_⟩
    · simp [callbackLines]
    · simp [callbackLines, List.indexesOf, List.findIdxs, List.foldrIdx, String.ext_iff]
    · simp [callbackLines, List.indexesOf, List.findIdxs, List.foldrIdx, String.ext_iff]
    · simp [callbackLines, List.indexesOf, List.findIdxs, List.foldrIdx, String.ext_iff]
  · subst hr
    rw [subscribe_unary g servName method w hu, appended_done]
    refine ⟨rfl, ?_, ?_, ?_, ?_⟩
    · simp [callbackLines]
    · simp [callbackLines, List.indexesOf, List.findIdxs, List.foldrIdx, String.ext_iff]
    · simp [callbackLines, List.indexesOf, List.findIdxs, List.foldrIdx, String.ext_iff]
    · simp [callbackLines, List.indexesOf, List.findIdxs, List.foldrIdx, String.ext_iff]

/-- Witness of C7: the queue-grouped registration of `SayHello` in `Greeter`. -/
theorem callback_pipeline_witness :
    isUnary sayHello = true ∧
    (generateServerQueueSubscribeMethod protocEnv "Greeter" sayHello
      World.empty).completed = true ∧
    List.indexesOf "return err" (appended World.empty
      (generateServerQueueSubscribeMethod protocEnv "Greeter" sayHello World.empty)) =
        [5, 10] ∧
    List.indexesOf "ctx.Publish(ctx.Reply, res)" (appended World.empty
      (generateServerQueueSubscribeMethod protocEnv "Greeter" sayHello World.empty)) =
        [14] :=
  ⟨by decide,
    (callback_pipeline protocEnv "Greeter" sayHello World.empty (by decide) _
      (List.mem_cons_self _ _)).1,
    (callback_pipeline protocEnv "Greeter" sayHello World.empty (by decide) _
      (List.mem_cons_self _ _)).2.2.1,
    (callback_pipeline protocEnv "Greeter" sayHello World.empty (by decide) _
      (List.mem_cons_self _ _)).2.2.2.2⟩

/-- C8: for every service name and every method, of any flavor, both registration
emitters complete and print the same number of lines; the header differs only in the
receiver (`ds *<Serv>Subscribe` for `dq *<Serv>QueueSubscribe`); for a unary method
the subject line differs only in the receiver (`ds.prefix` for `dq.prefix`) and the
registration line only in the call (`ds.m.Subscribe(subj, ...)` for
`dq.m.QueueSubscribe(subj, subj, ...)`); every line after the registration line is
the same in both, line for line; for a method that is not unary only the header is
printed. -/
theorem subscribe_mirrors_queueSubscribe (g : Env) (servName : String)
    (method : MethodDescriptorProto) (w : World) :
    ∃ tail : List String,
      generateServerQueueSubscribeMethod g servName method w =
        Run.done (World.mk (w.sink ++
          ("func (dq *" ++ servName ++ "QueueSubscribe) " ++ g.CamelCase method.name ++
              "(h " ++ g.CamelCase method.name ++ "Handler) \x7b") ::
            (if isUnary method then
              [ "subj := " ++ subjectExpr "dq" (ToLower (g.CamelCase method.name)),
                "dq.m.QueueSubscribe(subj, subj, func(ctx *" ++ g.microPkg ++
                  ".Context) error \x7b" ] ++ tail
             else [])) w.stdout) ∧
      generateServerSubscribeMethod g servName method w =
        Run.done (World.mk (w.sink ++
          ("func (ds *" ++ servName ++ "Subscribe) " ++ g.CamelCase method.name ++
              "(h " ++ g.CamelCase method.name ++ "Handler) \x7b") ::
            (if isUnary method then
              [ "subj := " ++ subjectExpr "ds" (ToLower (g.CamelCase method.name)),
                "ds.m.Subscribe(subj, func(ctx *" ++ g.microPkg ++
                  ".Context) error \x7b" ] ++ tail
             else [])) w.stdout) ∧
      (appended w (generateServerQueueSubscribeMethod g servName method w)).length =
        (appended w (generateServerSubscribeMethod g servName method w)).length ∧
      (appended w (generateServerQueueSubscribeMethod g servName method w)).drop 3 =
        (appended w (generateServerSubscribeMethod g servName method w)).drop 3 := by
  refine ⟨callbackLines (g.typeName method.inputType) (g.typeName method.outputType), ?_⟩
  cases hu : isUnary method
  · rw [queueSubscribe_streaming g servName method w hu,
      subscribe_streaming g servName method w hu, appended_done, appended_done]
    simp
  · rw [queueSubscribe_unary g servName method w hu,
      subscribe_unary g servName method w hu, appended_done, appended_done]
    simp [subjectExpr, String.ext_iff, List.append_assoc]

/-! ## Emitters only append to the buffer -/

theorem requestMethod_frame (g : Env) (reqServ servName serviceDescVar descExpr : String)
    (method : MethodDescriptorProto) (w : World) (hs : servName ≠ "") :
    generateClientRequestMethod g reqServ servName serviceDescVar method descExpr w =
      Run.done (World.mk
        (w.sink ++ linesOf (generateClientRequestMethod g "" servName "" method ""))
        w.stdout) := by
  obtain ⟨u, hu1⟩ := unexport_of_ne_empty servName hs
  cases hu : isUnary method
  · rw [requestMethod_streaming g reqServ servName serviceDescVar descExpr u method w hu1 hu,
      linesOf, requestMethod_streaming g "" servName "" "" u method World.empty hu1 hu]
    simp [appended, Run.world, World.empty]
  · rw [requestMethod_unary g reqServ servName serviceDescVar descExpr u method w hu1 hu,
      linesOf, requestMethod_unary g "" servName "" "" u method World.empty hu1 hu]
    simp [appended, Run.world, World.empty]

theorem publishMethod_frame (g : Env) (reqServ servName serviceDescVar descExpr : String)
    (method : MethodDescriptorProto) (w : World) (hs : servName ≠ "") :
    generateClientPublishMethod g reqServ servName serviceDescVar method descExpr w =
      Run.done (World.mk
        (w.sink ++ linesOf (generateClientPublishMethod g "" servName "" method ""))
        w.stdout) := by
  obtain ⟨u, hu1⟩ := unexport_of_ne_empty servName hs
  cases hu : isUnary method
  · rw [publishMethod_streaming g reqServ servName serviceDescVar descExpr u method w hu1 hu,
      linesOf, publishMethod_streaming g "" servName "" "" u method World.empty hu1 hu]
    simp [appended, Run.world, World.empty]
  · rw [publishMethod_unary g reqServ servName serviceDescVar descExpr u method w hu1 hu,
      linesOf, publishMethod_unary g "" servName "" "" u method World.empty hu1 hu]
    simp [appended, Run.world, World.empty]

theorem queueSubscribe_frame (g : Env) (servName : String) (method : MethodDescriptorProto)
    (w : World) :
    generateServerQueueSubscribeMethod g servName method w =
      Run.done (World.mk
        (w.sink ++ linesOf (generateServerQueueSubscribeMethod g servName method))
        w.stdout) := by
  cases hu : isUnary method
  · rw [queueSubscribe_streaming g servName method w hu, linesOf,
      queueSubscribe_streaming g servName method World.empty hu]
    simp [appended, Run.world, World.empty]
  · rw [queueSubscribe_unary g servName method w hu, linesOf,
      queueSubscribe_unary g servName method World.empty hu]
    simp [appended, Run.world, World.empty]

theorem subscribe_frame (g : Env) (servName : String) (method : MethodDescriptorProto)
    (w : World) :
    generateServerSubscribeMethod g servName method w =
      Run.done (World.mk
        (w.sink ++ linesOf (generateServerSubscribeMethod g servName method))
        w.stdout) := by
  cases hu : isUnary method
  · rw [subscribe_streaming g servName method w hu, linesOf,
      subscribe_streaming g servName method World.empty hu]
    simp [appended, Run.world, World.empty]
  · rw [subscribe_unary g servName method w hu, linesOf,
      subscribe_unary g servName method World.empty hu]
    simp [appended, Run.world, World.empty]

/-! ## The loops of `generateService` -/

theorem clientInterfaceLoop_eq (g : Env) (path servName : String)
    (methods : List MethodDescriptorProto) (i : Nat) (w : World) :
    clientInterfaceLoop g path servName methods i w =
      World.mk (w.sink ++ interfaceLines g path servName methods i) w.stdout := by
  induction methods generalizing i w with
  | nil => simp [clientInterfaceLoop, interfaceLines]
  | cons method rest ih =>
    simp [clientInterfaceLoop, interfaceLines, ih, P, PrintComments, String.join,
      List.append_assoc]

theorem serverSignatureLoop_eq (g : Env) (servName : String)
    (methods : List MethodDescriptorProto) (w : World) :
    serverSignatureLoop g servName methods w =
      World.mk (w.sink ++ methods.map (generateServerSignature g servName)) w.stdout := by
  induction methods generalizing w with
  | nil => simp [serverSignatureLoop]
  | cons method rest ih =>
    simp [serverSignatureLoop, ih, P, String.join, List.append_assoc]

theorem clientMethodLoop_eq (g : Env) (serviceName servName serviceDescVar : String)
    (methods : List MethodDescriptorProto) (methodIndex : Nat) (w : World)
    (hs : servName ≠ "") :
    clientMethodLoop g serviceName servName serviceDescVar methods methodIndex w =
      Run.done (World.mk (w.sink ++ methods.flatMap (clientMethodLines g servName))
        w.stdout) := by
  induction methods generalizing methodIndex w with
  | nil => simp [clientMethodLoop]
  | cons method rest ih =>
    simp only [clientMethodLoop]
    rw [requestMethod_frame g serviceName servName serviceDescVar _ method w hs]
    simp only [Run.andThen]
    rw [publishMethod_frame g serviceName servName serviceDescVar _ method _ hs]
    simp only [Run.andThen]
    rw [ih]
    simp [clientMethodLines, List.append_assoc]

theorem queueSubscribeLoop_eq (g : Env) (servName : String)
    (methods : List MethodDescriptorProto) (w : World) :
    queueSubscribeLoop g servName methods w =
      Run.done (World.mk
        (w.sink ++ methods.flatMap
          (fun method => linesOf (generateServerQueueSubscribeMethod g servName method)))
        w.stdout) := by
  induction methods generalizing w with
  | nil => simp [queueSubscribeLoop]
  | cons method rest ih =>
    simp only [queueSubscribeLoop]
    rw [queueSubscribe_frame g servName method w]
    simp only [Run.andThen]
    rw [ih]
    simp [List.append_assoc]

theorem subscribeLoop_eq (g : Env) (servName : String)
    (methods : List MethodDescriptorProto) (w : World) :
    subscribeLoop g servName methods w =
      Run.done (World.mk
        (w.sink ++ methods.flatMap
          (fun method => linesOf (generateServerSubscribeMethod g servName method)))
        w.stdout) := by
  induction methods generalizing w with
  | nil => simp [subscribeLoop]
  | cons method rest ih =>
    simp only [subscribeLoop]
    rw [subscribe_frame g servName method w]
    simp only [Run.andThen]
    rw [ih]
    simp [List.append_assoc]

/-! ## The service emitter -/

theorem generateService_done (g : Env) (file : FileDescriptor)
    (service : ServiceDescriptorProto) (index : Nat) (w : World) (u : String)
    (hs : unexport (g.CamelCase service.name) = some u) :
    generateService g file service index w =
      Run.done (World.mk (w.sink ++ serviceLines g service index u) w.stdout) := by
  have hne : g.CamelCase service.name ≠ "" := by
    intro h
    have h0 : unexport "" = none := by decide
    rw [h, h0] at hs
    cases hs
  simp only [generateService, hs, clientInterfaceLoop_eq, serverSignatureLoop_eq]
  rw [clientMethodLoop_eq g _ _ _ _ _ _ hne]
  simp only [Run.andThen]
  rw [queueSubscribeLoop_eq]
  simp only [Run.andThen]
  rw [subscribeLoop_eq]
  simp [serviceLines, clientSectionLines, handlerSectionLines, wiringHeadLines, P,
    String.join, String.ext_iff, List.append_assoc]

theorem generateService_aborts (g : Env) (file : FileDescriptor)
    (service : ServiceDescriptorProto) (index : Nat) (w : World)
    (hs : g.CamelCase service.name = "") :
    generateService g file service index w =
      Run.aborted (World.mk (w.sink ++
        ([ "", "// Client API for  service", "", "type Client interface \x7b" ] ++
          interfaceLines g ("6," ++ toString index) "" service.method 0 ++
          [ "\x7d", "" ])) w.stdout) := by
  have h0 : unexport "" = none := by decide
  simp [generateService, hs, h0, clientInterfaceLoop_eq, P, String.join,
    List.append_assoc]

/-! ## Handler types -/

/-- C9: for every service (whose CamelCased name is not empty, so that the client
struct can be named), `generateService` completes and prints, between the client
section and the QueueSubscribe wiring, the comment `// Server API for <S> service`,
a blank line and then exactly one handler-type declaration per method, in
declaration order, whatever the streaming flags of the method; every such line is
`type NHandler func(...) error`, and for a unary method it is
`type NHandler func(*micro.Context, *In, *Out) error` (for `SayHello` the type is
named `SayHelloHandler`). -/
theorem handler_types_of_service (g : Env) (file : FileDescriptor)
    (service : ServiceDescriptorProto) (index : Nat) (w : World)
    (hs : g.CamelCase service.name ≠ "") :
    (∃ u : String, unexport (g.CamelCase service.name) = some u ∧
      generateService g file service index w =
        Run.done (World.mk (w.sink ++
          (clientSectionLines g service index u ++
            [ "// Server API for " ++ g.CamelCase service.name ++ " service", "" ] ++
            service.method.map (generateServerSignature g (g.CamelCase service.name)) ++
            [ "" ] ++
            wiringHeadLines g service "QueueSubscribe" ++
            service.method.flatMap
              (fun method => linesOf
                (generateServerQueueSubscribeMethod g (g.CamelCase service.name) method)) ++
            wiringHeadLines g service "Subscribe" ++
            service.method.flatMap
              (fun method => linesOf
                (generateServerSubscribeMethod g (g.CamelCase service.name) method))))
          w.stdout)) ∧
    (service.method.map (generateServerSignature g (g.CamelCase service.name))).length =
      service.method.length ∧
    (∀ method : MethodDescriptorProto, ∃ args : String,
      generateServerSignature g (g.CamelCase service.name) method =
        "type " ++ g.CamelCase method.name ++ "Handler func(" ++ args ++ ") error") ∧
    (∀ method : MethodDescriptorProto, isUnary method = true →
      generateServerSignature g (g.CamelCase service.name) method =
        "type " ++ g.CamelCase method.name ++ "Handler func(*micro.Context, *" ++
          g.typeName method.inputType ++ ", *" ++ g.typeName method.outputType ++
          ") error") ∧
    generateServerSignature protocEnv "Greeter" sayHello =
      "type SayHelloHandler func(*micro.Context, *HelloRequest, *HelloReply) error" := by
  obtain ⟨u, hu1⟩ := unexport_of_ne_empty _ hs
  refine ⟨⟨u, hu1, ?_⟩, by simp, ?_, ?_, by decide⟩
  · rw [generateService_done g file service index w u hu1]
    simp [serviceLines, handlerSectionLines, List.append_assoc]
  · intro method
    refine ⟨String.intercalate ", "
      ((if (!method.clientStreaming) = true then
          ["*micro.Context"] ++ ["*" ++ g.typeName method.inputType]
        else ["*micro.Context"]) ++
        (if (!method.clientStreaming && !method.serverStreaming) = true then
          ["*" ++ g.typeName method.outputType]
        else [])), ?_⟩
    cases h1 : method.clientStreaming <;> cases h2 : method.serverStreaming <;>
      simp [generateServerSignature, reservedClientName, h1, h2, String.ext_iff,
        List.append_assoc]
  · intro method hu
    obtain ⟨h1, h2⟩ := (isUnary_iff method).mp hu
    simp [generateServerSignature, reservedClientName, h1, h2, String.intercalate,
      String.intercalate.go, String.ext_iff, List.append_assoc]

/-- Witness of C9: the service `Greeter` of the file `helloworld`. -/
theorem handler_types_of_service_witness :
    protocEnv.CamelCase greeter.name ≠ "" ∧
    (greeter.method.map
        (generateServerSignature protocEnv (protocEnv.CamelCase greeter.name))).length =
      greeter.method.length ∧
    greeter.method.map (generateServerSignature protocEnv (protocEnv.CamelCase greeter.name)) =
      [ "type SayHelloHandler func(*micro.Context, *HelloRequest, *HelloReply) error" ] :=
  ⟨by decide,
    (handler_types_of_service protocEnv greeterFile greeter 0 World.empty (by decide)).2.1,
    by decide⟩

/-! ## Signatures of client-streaming methods -/

/-- C10, counterexample: for the client-streaming-only method `Upload` of the service
`Greeter`, with output type `Summary`, the Request signature is
`UploadRequest() (Greeter_UploadClient, error)`, not
`UploadRequest() (*Summary, error)`. -/
theorem client_streaming_signature_of_Upload :
    upload.clientStreaming = true ∧ upload.serverStreaming = false ∧
    generateClientRequestSignature protocEnv "Greeter" upload =
      "UploadRequest() (Greeter_UploadClient, error)" ∧
    generateClientRequestSignature protocEnv "Greeter" upload ≠
      protocEnv.CamelCase upload.name ++ "Request() (*" ++
        protocEnv.typeName upload.outputType ++ ", error)" := by
  decide

/-- C10, amended: for every client-streaming-only method with CamelCased name `N`
of a service with CamelCased name `S`, the Request signature has an empty argument
list and its response type is the synthetic name `S_NClient`: the signature is
`NRequest() (S_NClient, error)`. -/
theorem client_streaming_request_signature (g : Env) (servName : String)
    (method : MethodDescriptorProto)
    (hc : method.clientStreaming = true) (hss : method.serverStreaming = false) :
    generateClientRequestSignature g servName method =
      g.CamelCase method.name ++ "Request() (" ++ servName ++ "_" ++
        g.CamelCase method.name ++ "Client, error)" := by
  simp [generateClientRequestSignature, reservedClientName, hc, hss, String.ext_iff,
    List.append_assoc]

/-- Witness of C10, amended: the method `Upload` of the service `Greeter`. -/
theorem client_streaming_request_signature_witness :
    upload.clientStreaming = true ∧ upload.serverStreaming = false ∧
    generateClientRequestSignature protocEnv "Greeter" upload =
      protocEnv.CamelCase upload.name ++ "Request() (" ++ "Greeter" ++ "_" ++
        protocEnv.CamelCase upload.name ++ "Client, error)" :=
  ⟨by decide, by decide,
    client_streaming_request_signature protocEnv "Greeter" upload (by decide) (by decide)⟩

/-! ## Signatures of server-streaming methods -/

/-- C11: for every method with `server_streaming = true`, with or without
`client_streaming`, of a service named `S` (CamelCased) and with CamelCased method
name `M`, the response type of the client Request signature is the synthetic name
`S_MClient`, not a pointer to the output type, and the request argument `req *In`
is kept exactly when `client_streaming = false`. -/
theorem server_streaming_request_signature (g : Env) (servName : String)
    (method : MethodDescriptorProto) (hss : method.serverStreaming = true) :
    generateClientRequestSignature g servName method =
        g.CamelCase method.name ++ "Request(" ++
          (if method.clientStreaming then "" else "req *" ++ g.typeName method.inputType) ++
          ") (" ++ servName ++ "_" ++ g.CamelCase method.name ++ "Client, error)" ∧
    (method.clientStreaming = false →
      generateClientRequestSignature g servName method =
        g.CamelCase method.name ++ "Request(req *" ++ g.typeName method.inputType ++
          ") (" ++ servName ++ "_" ++ g.CamelCase method.name ++ "Client, error)") ∧
    (method.clientStreaming = true →
      generateClientRequestSignature g servName method =
        g.CamelCase method.name ++ "Request() (" ++ servName ++ "_" ++
          g.CamelCase method.name ++ "Client, error)") := by
  refine ⟨?_, ?_, ?_⟩
  · cases hc : method.clientStreaming <;>
      simp [generateClientRequestSignature, reservedClientName, hc, hss, String.ext_iff,
        List.append_assoc]
  · intro hc
    simp [generateClientRequestSignature, reservedClientName, hc, hss, String.ext_iff,
      List.append_assoc]
  · intro hc
    simp [generateClientRequestSignature, reservedClientName, hc, hss, String.ext_iff,
      List.append_assoc]

/-- Witness of C11: the methods `ListFeatures` (server streaming only) and
`RouteChat` (both directions) of the service `RouteGuide`. -/
theorem server_streaming_request_signature_witness :
    listFeatures.serverStreaming = true ∧ routeChat.serverStreaming = true ∧
    generateClientRequestSignature protocEnv "RouteGuide" listFeatures =
      "ListFeaturesRequest(req *Rectangle) (RouteGuide_ListFeaturesClient, error)" ∧
    generateClientRequestSignature protocEnv "RouteGuide" routeChat =
      "RouteChatRequest() (RouteGuide_RouteChatClient, error)" := by
  refine ⟨by decide, by decide, ?_, ?_⟩
  · rw [(server_streaming_request_signature protocEnv "RouteGuide" listFeatures
      (by decide)).2.1 (by decide)]
    decide
  · rw [(server_streaming_request_signature protocEnv "RouteGuide" routeChat
      (by decide)).2.2 (by decide)]
    decide

/-! ## Methods that are not unary -/

/-- C12: for every method that is not unary, of a service whose CamelCased name is
not empty, each of the four method emitters (client Request, client Publish,
QueueSubscribe registration, Subscribe registration) completes and appends exactly
one line, the header of the method, and no body line; the handler-type declaration
of the method is still among the lines `generateService` prints. -/
theorem streaming_methods_print_headers_only (g : Env) (file : FileDescriptor)
    (service : ServiceDescriptorProto) (index : Nat)
    (reqServ serviceDescVar descExpr : String) (method : MethodDescriptorProto)
    (w : World) (hs : g.CamelCase service.name ≠ "") (hm : method ∈ service.method)
    (hu : isUnary method = false) :
    ∃ u : String, unexport (g.CamelCase service.name) = some u ∧
      generateClientRequestMethod g reqServ (g.CamelCase service.name) serviceDescVar
          method descExpr w =
        Run.done (World.mk (w.sink ++
          [ "func (c *" ++ u ++ "Client) " ++
              generateClientRequestSignature g (g.CamelCase service.name) method ++
              "\x7b" ]) w.stdout) ∧
      generateClientPublishMethod g reqServ (g.CamelCase service.name) serviceDescVar
          method descExpr w =
        Run.done (World.mk (w.sink ++
          [ "func (c *" ++ u ++ "Client) " ++
              generateClientPublishSignature g (g.CamelCase service.name) method ++
              "\x7b" ]) w.stdout) ∧
      generateServerQueueSubscribeMethod g (g.CamelCase service.name) method w =
        Run.done (World.mk (w.sink ++
          [ "func (dq *" ++ g.CamelCase service.name ++ "QueueSubscribe) " ++
              g.CamelCase method.name ++ "(h " ++ g.CamelCase method.name ++
              "Handler) \x7b" ]) w.stdout) ∧
      generateServerSubscribeMethod g (g.CamelCase service.name) method w =
        Run.done (World.mk (w.sink ++
          [ "func (ds *" ++ g.CamelCase service.name ++ "Subscribe) " ++
              g.CamelCase method.name ++ "(h " ++ g.CamelCase method.name ++
              "Handler) \x7b" ]) w.stdout) ∧
      generateServerSignature g (g.CamelCase service.name) method ∈
        appended w (generateService g file service index w) := by
  obtain ⟨u, hu1⟩ := unexport_of_ne_empty _ hs
  refine ⟨u, hu1, ?_, ?_, ?_, ?_, ?_⟩
  · exact requestMethod_streaming g reqServ _ serviceDescVar descExpr u method w hu1 hu
  · exact publishMethod_streaming g reqServ _ serviceDescVar descExpr u method w hu1 hu
  · exact queueSubscribe_streaming g _ method w hu
  · exact subscribe_streaming g _ method w hu
  · rw [generateService_done g file service index w u hu1, appended_done]
    simp only [serviceLines, handlerSectionLines, List.mem_append, List.mem_map]
    exact Or.inl (Or.inl (Or.inl (Or.inl (Or.inr (Or.inl (Or.inr ⟨method, hm, rfl⟩))))))

/-- Witness of C12: the server-streaming method `ListFeatures` of the service
`RouteGuide`, printed into the empty buffer. -/
theorem streaming_methods_print_headers_only_witness :
    protocEnv.CamelCase routeGuide.name ≠ "" ∧ listFeatures ∈ routeGuide.method ∧
    isUnary listFeatures = false ∧
    generateServerQueueSubscribeMethod protocEnv (protocEnv.CamelCase routeGuide.name)
        listFeatures World.empty =
      Run.done (World.mk (World.empty.sink ++
        [ "func (dq *" ++ protocEnv.CamelCase routeGuide.name ++ "QueueSubscribe) " ++
            protocEnv.CamelCase listFeatures.name ++ "(h " ++
            protocEnv.CamelCase listFeatures.name ++ "Handler) \x7b" ])
        World.empty.stdout) ∧
    generateServerSignature protocEnv (protocEnv.CamelCase routeGuide.name) listFeatures ∈
      appended World.empty (generateService protocEnv routeGuideFile routeGuide 0
        World.empty) := by
  obtain ⟨u, _, _, _, h3, _, h5⟩ := streaming_methods_print_headers_only protocEnv
    routeGuideFile routeGuide 0 "routeguide" "_RouteGuide_serviceDesc" "" listFeatures
    World.empty (by decide) (by decide) (by decide)
  exact ⟨by decide, by decide, by decide, h3, h5⟩

/-! ## Lower-casing of characters -/

theorem toLower_of_upper (c : Char) (h : 65 ≤ c.toNat ∧ c.toNat ≤ 90) :
    c.toLower = Char.ofNat (c.toNat + 32) := by
  unfold Char.toLower
  simp only [ge_iff_le, h, and_self, if_true]

theorem toLower_of_not_upper (c : Char) (h : ¬ (65 ≤ c.toNat ∧ c.toNat ≤ 90)) :
    c.toLower = c := by
  unfold Char.toLower
  simp only [ge_iff_le, h, if_false]

theorem toLower_toLower (c : Char) : c.toLower.toLower = c.toLower := by
  by_cases h : 65 ≤ c.toNat ∧ c.toNat ≤ 90
  · rw [toLower_of_upper c h]
    obtain ⟨h1, h2⟩ := h
    generalize c.toNat = n at h1 h2
    interval_cases n <;> decide
  · rw [toLower_of_not_upper c h, toLower_of_not_upper c h]

theorem toLower_ne_of_ne (c b : Char) (hb : b = '\x7b' ∨ b = '\x7d') (h : c ≠ b) :
    c.toLower ≠ b := by
  by_cases h0 : 65 ≤ c.toNat ∧ c.toNat ≤ 90
  · rw [toLower_of_upper c h0]
    obtain ⟨h1, h2⟩ := h0
    generalize c.toNat = n at h1 h2
    rcases hb with hb | hb <;> subst hb <;> interval_cases n <;> decide
  · rw [toLower_of_not_upper c h0]
    exact h

theorem unexport_cons (c : Char) (cs : List Char) :
    unexport (String.mk (c :: cs)) = some (String.mk (c.toLower :: cs)) := by
  simp [unexport, ToLower, String.ext_iff]

/-! ## The name of the client struct -/

/-- C13: for every non-empty identifier `s` (ASCII text, as the identifiers of a
schema are), `unexport s` is `s` with its first character lower-cased and every
later character unchanged; it has the length of `s` and `unexport` leaves it
unchanged.  For a service with exported (CamelCased, non-empty) name `S`, the client
struct printed by `generateService` is named `unexport S` followed by `Client`, and
the constructor `New<S>Client` returns a pointer to that same struct type; for the
service `Greeter` the struct is `greeterClient`. -/
theorem client_struct_is_unexported_name (g : Env) (file : FileDescriptor)
    (service : ServiceDescriptorProto) (index : Nat) (w : World) (s : String)
    (hs : s ≠ "") (hS : g.CamelCase service.name ≠ "") :
    (∃ (c : Char) (cs : List Char), s.data = c :: cs ∧
      unexport s = some (String.mk (c.toLower :: cs))) ∧
    (∀ u : String, unexport s = some u → u.length = s.length ∧ unexport u = some u) ∧
    (∃ (u : String) (before after : List String),
      unexport (g.CamelCase service.name) = some u ∧
      generateService g file service index w =
        Run.done (World.mk (w.sink ++
          (before ++
            [ "type " ++ u ++ "Client struct \x7b",
              "c " ++ g.microPkg ++ ".Client",
              "prefix string",
              "\x7d",
              "",
              "func New" ++ g.CamelCase service.name ++ "Client (prefix string, c " ++
                g.microPkg ++ ".Client) " ++ g.CamelCase service.name ++ "Client \x7b",
              "return &" ++ u ++ "Client\x7b",
              "c: c,",
              "prefix: prefix,",
              "\x7d",
              "\x7d",
              "" ] ++ after)) w.stdout)) ∧
    unexport (protocEnv.CamelCase greeter.name) = some "greeter" ∧
    "type greeterClient struct \x7b" ∈
      appended World.empty (generateService protocEnv greeterFile greeter 0 World.empty) := by
  refine ⟨?_, ?_, ?_, by decide, ?_⟩
  · obtain ⟨l⟩ := s
    cases l with
    | nil => exact absurd rfl hs
    | cons c cs => exact ⟨c, cs, rfl, unexport_cons c cs⟩
  · intro u hu
    obtain ⟨l⟩ := s
    cases l with
    | nil => exact absurd rfl hs
    | cons c cs =>
      rw [unexport_cons] at hu
      have hu2 : u = String.mk (c.toLower :: cs) := (Option.some.inj hu).symm
      subst hu2
      refine ⟨by simp [String.length], ?_⟩
      rw [unexport_cons, toLower_toLower]
  · obtain ⟨u, hu1⟩ := unexport_of_ne_empty _ hS
    refine ⟨u,
      [ "", "// Client API for " ++ g.CamelCase service.name ++ " service", "",
        "type " ++ g.CamelCase service.name ++ "Client interface \x7b" ] ++
        interfaceLines g ("6," ++ toString index) (g.CamelCase service.name)
          service.method 0 ++ [ "\x7d", "" ],
      service.method.flatMap (clientMethodLines g (g.CamelCase service.name)) ++
        handlerSectionLines g service ++
        wiringHeadLines g service "QueueSubscribe" ++
        service.method.flatMap
          (fun method => linesOf
            (generateServerQueueSubscribeMethod g (g.CamelCase service.name) method)) ++
        wiringHeadLines g service "Subscribe" ++
        service.method.flatMap
          (fun method => linesOf
            (generateServerSubscribeMethod g (g.CamelCase service.name) method)),
      hu1, ?_⟩
    rw [generateService_done g file service index w u hu1]
    simp [serviceLines, clientSectionLines, List.append_assoc]
  · have hg : unexport (protocEnv.CamelCase greeter.name) = some "greeter" := by decide
    rw [generateService_done protocEnv greeterFile greeter 0 World.empty "greeter" hg,
      appended_done]
    simp [serviceLines, clientSectionLines]

/-- Witness of C13: the identifier `Greeter` and the service `Greeter`. -/
theorem client_struct_is_unexported_name_witness :
    "Greeter" ≠ "" ∧ protocEnv.CamelCase greeter.name ≠ "" ∧
    (∃ (c : Char) (cs : List Char), "Greeter".data = c :: cs ∧
      unexport "Greeter" = some (String.mk (c.toLower :: cs))) ∧
    (∀ u : String, unexport "Greeter" = some u →
      u.length = "Greeter".length ∧ unexport u = some u) :=
  ⟨by decide, by decide,
    (client_struct_is_unexported_name protocEnv greeterFile greeter 0 World.empty
      "Greeter" (by decide) (by decide)).1,
    (client_struct_is_unexported_name protocEnv greeterFile greeter 0 World.empty
      "Greeter" (by decide) (by decide)).2.1⟩

/-! ## The client interface -/

theorem interfaceLines_eq_flatMap (g : Env) (path servName : String)
    (methods : List MethodDescriptorProto) (i : Nat) :
    interfaceLines g path servName methods i =
      (methods.enumFrom i).flatMap
        (fun p => g.comments (path ++ ",2," ++ toString p.1) ++
          [ generateClientRequestSignature g servName p.2,
            generateClientPublishSignature g servName p.2 ]) := by
  induction methods generalizing i with
  | nil => simp [interfaceLines]
  | cons method rest ih =>
    simp [interfaceLines, List.enumFrom, ih, List.append_assoc]

theorem clientMethodLines_heads (g : Env) (servName u : String)
    (method : MethodDescriptorProto) (hs : unexport servName = some u) :
    ∃ requestBody publishBody : List String,
      clientMethodLines g servName method =
        ("func (c *" ++ u ++ "Client) " ++
            generateClientRequestSignature g servName method ++ "\x7b") :: requestBody ++
        ("func (c *" ++ u ++ "Client) " ++
            generateClientPublishSignature g servName method ++ "\x7b") :: publishBody := by
  cases hu : isUnary method
  · refine ⟨[], [], ?_⟩
    rw [clientMethodLines, linesOf, linesOf,
      requestMethod_streaming g "" servName "" "" u method World.empty hs hu,
      publishMethod_streaming g "" servName "" "" u method World.empty hs hu]
    simp [appended, Run.world, World.empty]
  · refine ⟨
      [ "res := new(" ++ g.typeName method.outputType ++ ")",
        "err := c.c.Request(c.prefix+\"." ++ ToLower (g.CamelCase method.name) ++
          "\", req, res, micro.DefaultTimeout)",
        "if err != nil \x7b return nil, err \x7d",
        "return res, nil",
        "\x7d",
        "" ],
      [ "return c.c.Publish(c.prefix+\"." ++ ToLower (g.CamelCase method.name) ++
          "\", req)",
        "\x7d",
        "" ], ?_⟩
    rw [clientMethodLines, linesOf, linesOf,
      requestMethod_unary g "" servName "" "" u method World.empty hs hu,
      publishMethod_unary g "" servName "" "" u method World.empty hs hu]
    simp [appended, Run.world, World.empty]

/-- C14: for every service (whose CamelCased name `S` is not empty), the client
interface block `type SClient interface {` ... `}` printed by `generateService`
holds, for each method in declaration order, its comment lines, then its Request
signature immediately followed by its Publish signature; and the client methods
printed after the constructor have, method by method, the headers
`func (c *sClient) <signature>{` with character for character these same Request
and Publish signatures. -/
theorem interface_matches_client_methods (g : Env) (file : FileDescriptor)
    (service : ServiceDescriptorProto) (index : Nat) (w : World)
    (hS : g.CamelCase service.name ≠ "") :
    ∃ (u : String) (after : List String),
      unexport (g.CamelCase service.name) = some u ∧
      generateService g file service index w =
        Run.done (World.mk (w.sink ++
          ([ "",
             "// Client API for " ++ g.CamelCase service.name ++ " service",
             "",
             "type " ++ g.CamelCase service.name ++ "Client interface \x7b" ] ++
            (service.method.enumFrom 0).flatMap
              (fun p =>
                g.comments (("6," ++ toString index) ++ ",2," ++ toString p.1) ++
                  [ generateClientRequestSignature g (g.CamelCase service.name) p.2,
                    generateClientPublishSignature g (g.CamelCase service.name) p.2 ]) ++
            [ "\x7d",
              "",
              "type " ++ u ++ "Client struct \x7b",
              "c " ++ g.microPkg ++ ".Client",
              "prefix string",
              "\x7d",
              "",
              "func New" ++ g.CamelCase service.name ++ "Client (prefix string, c " ++
                g.microPkg ++ ".Client) " ++ g.CamelCase service.name ++ "Client \x7b",
              "return &" ++ u ++ "Client\x7b",
              "c: c,",
              "prefix: prefix,",
              "\x7d",
              "\x7d",
              "" ] ++
            service.method.flatMap (clientMethodLines g (g.CamelCase service.name)) ++
            after)) w.stdout) ∧
      ∀ method : MethodDescriptorProto, ∃ requestBody publishBody : List String,
        clientMethodLines g (g.CamelCase service.name) method =
          ("func (c *" ++ u ++ "Client) " ++
              generateClientRequestSignature g (g.CamelCase service.name) method ++
              "\x7b") :: requestBody ++
          ("func (c *" ++ u ++ "Client) " ++
              generateClientPublishSignature g (g.CamelCase service.name) method ++
              "\x7b") :: publishBody := by
  obtain ⟨u, hu1⟩ := unexport_of_ne_empty _ hS
  refine ⟨u,
    handlerSectionLines g service ++
      wiringHeadLines g service "QueueSubscribe" ++
      service.method.flatMap
        (fun method => linesOf
          (generateServerQueueSubscribeMethod g (g.CamelCase service.name) method)) ++
      wiringHeadLines g service "Subscribe" ++
      service.method.flatMap
        (fun method => linesOf
          (generateServerSubscribeMethod g (g.CamelCase service.name) method)),
    hu1, ?_, ?_⟩
  · rw [generateService_done g file service index w u hu1]
    simp [serviceLines, clientSectionLines, interfaceLines_eq_flatMap, List.append_assoc]
  · intro method
    exact clientMethodLines_heads g _ u method hu1

/-- Witness of C14: the service `Greeter`: its interface block and the headers of
its two client methods. -/
theorem interface_matches_client_methods_witness :
    protocEnv.CamelCase greeter.name ≠ "" ∧
    ∃ (u : String) (after : List String),
      unexport (protocEnv.CamelCase greeter.name) = some u ∧
      generateService protocEnv greeterFile greeter 0 World.empty =
        Run.done (World.mk (World.empty.sink ++
          ([ "",
             "// Client API for " ++ protocEnv.CamelCase greeter.name ++ " service",
             "",
             "type " ++ protocEnv.CamelCase greeter.name ++ "Client interface \x7b" ] ++
            (greeter.method.enumFrom 0).flatMap
              (fun p =>
                protocEnv.comments (("6," ++ toString 0) ++ ",2," ++ toString p.1) ++
                  [ generateClientRequestSignature protocEnv
                      (protocEnv.CamelCase greeter.name) p.2,
                    generateClientPublishSignature protocEnv
                      (protocEnv.CamelCase greeter.name) p.2 ]) ++
            [ "\x7d",
              "",
              "type " ++ u ++ "Client struct \x7b",
              "c " ++ protocEnv.microPkg ++ ".Client",
              "prefix string",
              "\x7d",
              "",
              "func New" ++ protocEnv.CamelCase greeter.name ++
                "Client (prefix string, c " ++ protocEnv.microPkg ++ ".Client) " ++
                protocEnv.CamelCase greeter.name ++ "Client \x7b",
              "return &" ++ u ++ "Client\x7b",
              "c: c,",
              "prefix: prefix,",
              "\x7d",
              "\x7d",
              "" ] ++
            greeter.method.flatMap
              (clientMethodLines protocEnv (protocEnv.CamelCase greeter.name)) ++
            after)) World.empty.stdout) ∧
      ∀ method : MethodDescriptorProto, ∃ requestBody publishBody : List String,
        clientMethodLines protocEnv (protocEnv.CamelCase greeter.name) method =
          ("func (c *" ++ u ++ "Client) " ++
              generateClientRequestSignature protocEnv (protocEnv.CamelCase greeter.name)
                method ++ "\x7b") :: requestBody ++
          ("func (c *" ++ u ++ "Client) " ++
              generateClientPublishSignature protocEnv (protocEnv.CamelCase greeter.name)
                method ++ "\x7b") :: publishBody :=
  ⟨by decide,
    interface_matches_client_methods protocEnv greeterFile greeter 0 World.empty
      (by decide)⟩

/-! ## The driver -/

theorem generateService_lines (g : Env) (file : FileDescriptor)
    (service : ServiceDescriptorProto) (index : Nat) (u : String)
    (hs : unexport (g.CamelCase service.name) = some u) :
    linesOf (generateService g file service index) = serviceLines g service index u := by
  rw [linesOf, generateService_done g file service index World.empty u hs]
  simp [appended, Run.world, World.empty]

theorem generateService_stdout (g : Env) (file : FileDescriptor)
    (service : ServiceDescriptorProto) (index : Nat) (w : World) :
    (generateService g file service index w).world.stdout = w.stdout := by
  by_cases h : g.CamelCase service.name = ""
  · rw [generateService_aborts g file service index w h]
    rfl
  · obtain ⟨u, hu⟩ := unexport_of_ne_empty _ h
    rw [generateService_done g file service index w u hu]
    rfl

theorem serviceLoop_eq (g : Env) (file : FileDescriptor)
    (services : List ServiceDescriptorProto) (i : Nat) (w : World)
    (hnames : ∀ service ∈ services, g.CamelCase service.name ≠ "") :
    serviceLoop g file services i w =
      Run.done (World.mk
        (w.sink ++ (services.enumFrom i).flatMap
          (fun p => linesOf (generateService g file p.2 p.1)))
        w.stdout) := by
  induction services generalizing i w with
  | nil => simp [serviceLoop]
  | cons service rest ih =>
    obtain ⟨u, hu⟩ := unexport_of_ne_empty _ (hnames service (List.mem_cons_self _ _))
    simp only [serviceLoop]
    rw [generateService_done g file service i w u hu]
    simp only [Run.andThen]
    rw [ih _ _ (fun t ht => hnames t (List.mem_cons_of_mem _ ht))]
    simp [List.enumFrom, generateService_lines g file service i u hu, List.append_assoc]

theorem serviceLoop_stdout (g : Env) (file : FileDescriptor)
    (services : List ServiceDescriptorProto) (i : Nat) (w : World) :
    (serviceLoop g file services i w).world.stdout = w.stdout := by
  induction services generalizing i w with
  | nil => simp [serviceLoop, Run.world]
  | cons service rest ih =>
    simp only [serviceLoop]
    have h := generateService_stdout g file service i w
    cases hr : generateService g file service i w with
    | done w1 =>
      rw [hr] at h
      simp only [Run.andThen]
      rw [ih]
      exact h
    | aborted w1 =>
      rw [hr] at h
      simp only [Run.andThen]
      exact h

/-- C15: for a file with no services `Generate` completes and appends nothing to the
output buffer; for a file with services `s_0, ..., s_{n-1}` (`n ≥ 1`, every CamelCased
service name non-empty) it completes and appends the fixed two-line header followed by
the outputs of `generateService (s_0, 0)`, ..., `generateService (s_{n-1}, n-1)`,
concatenated in file order; the output of each service is `serviceLines`, in which
the interface, the client methods, the handler types and the two families of
registration methods each run through the methods in declaration order. -/
theorem generate_appends_header_and_services (g : Env) (file : FileDescriptor) (w : World)
    (hnames : ∀ service ∈ file.service, g.CamelCase service.name ≠ "") :
    (file.service = [] →
      (Generate g file w).completed = true ∧ appended w (Generate g file w) = [] ∧
        (Generate g file w).world.sink = w.sink) ∧
    (file.service ≠ [] →
      (Generate g file w).completed = true ∧
      appended w (Generate g file w) =
        [ "// Reference imports to suppress errors if they are not otherwise used.",
          "" ] ++
        (file.service.enumFrom 0).flatMap
          (fun p => linesOf (generateService g file p.2 p.1))) ∧
    (∀ service ∈ file.service, ∀ index : Nat,
      ∃ u : String, unexport (g.CamelCase service.name) = some u ∧
        linesOf (generateService g file service index) =
          serviceLines g service index u) := by
  refine ⟨?_, ?_, ?_⟩
  · intro h
    simp [Generate, h, Println, Run.completed, appended, Run.world]
  · intro h
    have hlen : ¬ file.service.length = 0 := by
      intro h0
      exact h (List.length_eq_zero.mp h0)
    simp only [Generate, hlen, if_false]
    rw [serviceLoop_eq g file file.service 0 _ hnames]
    simp [P, Println, String.join, Run.completed, appended, Run.world, List.append_assoc]
  · intro service hs index
    obtain ⟨u, hu⟩ := unexport_of_ne_empty _ (hnames service hs)
    exact ⟨u, hu, generateService_lines g file service index u hu⟩

/-- Witness of C15: the file `helloworld` with the service `Greeter`. -/
theorem generate_appends_header_and_services_witness :
    (∀ service ∈ greeterFile.service, protocEnv.CamelCase service.name ≠ "") ∧
    greeterFile.service ≠ [] ∧
    (Generate protocEnv greeterFile World.empty).completed = true ∧
    appended World.empty (Generate protocEnv greeterFile World.empty) =
      [ "// Reference imports to suppress errors if they are not otherwise used.",
        "" ] ++
      (greeterFile.service.enumFrom 0).flatMap
        (fun p => linesOf (generateService protocEnv greeterFile p.2 p.1)) :=
  ⟨by decide, by decide,
    (generate_appends_header_and_services protocEnv greeterFile World.empty
      (by decide)).2.1 (by decide)⟩

/-- C16, the code at the failing input: `Generate` starts with
`fmt.Println("@@@@@")`, so every run, for a file with services or without, adds the
line `@@@@@` to standard output; on the file without services this is its only
effect. -/
theorem generate_writes_to_stdout (g : Env) (file : FileDescriptor) (w : World) :
    (Generate g file w).world.stdout = w.stdout ++ ["@@@@@"] ∧
    (Generate g file w).world.stdout ≠ w.stdout ∧
    Generate protocEnv noServiceFile World.empty = Run.done (World.mk [] ["@@@@@"]) ∧
    (Generate protocEnv greeterFile World.empty).world.stdout = ["@@@@@"] := by
  have h1 : (Generate g file w).world.stdout = w.stdout ++ ["@@@@@"] := by
    by_cases h : file.service.length = 0
    · simp [Generate, h, Println, Run.world]
    · simp only [Generate, h, if_false]
      rw [serviceLoop_stdout]
      simp [P, Println]
  refine ⟨h1, ?_, by decide, ?_⟩
  · rw [h1]
    simp
  · have h2 : (Generate protocEnv greeterFile World.empty).world.stdout =
        World.empty.stdout ++ ["@@@@@"] := by
      by_cases h : greeterFile.service.length = 0
      · simp [Generate, h, Println, Run.world]
      · simp only [Generate, h, if_false]
        rw [serviceLoop_stdout]
        simp [P, Println]
    rw [h2]
    rfl

/-! ## The empty service name -/

/-- C18: `unexport` is defined exactly when its argument is not empty: it returns a
value for every non-empty string and fails (the slice `s[:1]` is out of range) for
the empty string.  Consequently `generateService` on a service whose CamelCased name
is empty does not complete: it aborts after the lines of the client interface, when
it reaches the client struct declaration, and prints nothing further. -/
theorem unexport_defined_iff_nonempty (g : Env) (file : FileDescriptor)
    (service : ServiceDescriptorProto) (index : Nat) (w : World)
    (hS : g.CamelCase service.name = "") :
    (∀ s : String, (unexport s).isSome = true ↔ s ≠ "") ∧
    unexport "" = none ∧
    (generateService g file service index w).completed = false ∧
    generateService g file service index w =
      Run.aborted (World.mk (w.sink ++
        ([ "", "// Client API for  service", "", "type Client interface \x7b" ] ++
          (service.method.enumFrom 0).flatMap
            (fun p =>
              g.comments (("6," ++ toString index) ++ ",2," ++ toString p.1) ++
                [ generateClientRequestSignature g "" p.2,
                  generateClientPublishSignature g "" p.2 ]) ++
          [ "\x7d", "" ])) w.stdout) := by
  refine ⟨?_, by decide, ?_, ?_⟩
  · intro s
    constructor
    · intro h hs
      rw [hs] at h
      exact absurd h (by decide)
    · intro hs
      obtain ⟨u, hu⟩ := unexport_of_ne_empty s hs
      rw [hu]
      rfl
  · rw [generateService_aborts g file service index w hS]
    rfl
  · rw [generateService_aborts g file service index w hS, interfaceLines_eq_flatMap]

/-- Witness of C18: the service descriptor with the empty name and the method
`SayHello`, printed into the empty buffer. -/
theorem unexport_defined_iff_nonempty_witness :
    protocEnv.CamelCase unnamedService.name = "" ∧
    (generateService protocEnv greeterFile unnamedService 0 World.empty).completed = false ∧
    generateService protocEnv greeterFile unnamedService 0 World.empty =
      Run.aborted (World.mk
        [ "", "// Client API for  service", "", "type Client interface \x7b",
          "SayHelloRequest(req *HelloRequest) (*HelloReply, error)",
          "SayHelloPublish(req *HelloRequest) (error)",
          "\x7d", "" ] []) := by
  refine ⟨by decide,
    (unexport_defined_iff_nonempty protocEnv greeterFile unnamedService 0 World.empty
      (by decide)).2.2.1, ?_⟩
  rw [(unexport_defined_iff_nonempty protocEnv greeterFile unnamedService 0 World.empty
      (by decide)).2.2.2]
  decide

/-! ## Counting braces -/

theorem countChar_nil (c : Char) : countChar c [] = 0 := rfl

theorem countChar_cons (c : Char) (line : String) (lines : List String) :
    countChar c (line :: lines) = line.data.count c + countChar c lines := by
  simp [countChar]

theorem countChar_append (c : Char) (a b : List String) :
    countChar c (a ++ b) = countChar c a + countChar c b := by
  simp [countChar]

theorem braceBalance_nil : braceBalance [] = 0 := rfl

theorem braceBalance_append (a b : List String) :
    braceBalance (a ++ b) = braceBalance a + braceBalance b := by
  simp only [braceBalance, countChar_append]
  push_cast
  ring

theorem count_of_braceFree (s : String) (h : braceFree s) :
    s.data.count '\x7b' = 0 ∧ s.data.count '\x7d' = 0 :=
  ⟨List.count_eq_zero.mpr h.1, List.count_eq_zero.mpr h.2⟩

theorem braceFree_ToLower (s : String) (h : braceFree s) : braceFree (ToLower s) := by
  constructor
  · intro hm
    simp only [ToLower, List.mem_map] at hm
    obtain ⟨c, hc, hcl⟩ := hm
    have hne : c ≠ '\x7b' := fun e => h.1 (e ▸ hc)
    exact toLower_ne_of_ne c '\x7b' (Or.inl rfl) hne hcl
  · intro hm
    simp only [ToLower, List.mem_map] at hm
    obtain ⟨c, hc, hcl⟩ := hm
    have hne : c ≠ '\x7d' := fun e => h.2 (e ▸ hc)
    exact toLower_ne_of_ne c '\x7d' (Or.inr rfl) hne hcl

theorem braceFree_unexport (s u : String) (hu : unexport s = some u) (h : braceFree s) :
    braceFree u := by
  obtain ⟨l⟩ := s
  cases l with
  | nil =>
    have h0 : unexport (String.mk []) = none := rfl
    rw [h0] at hu
    cases hu
  | cons c cs =>
    rw [unexport_cons] at hu
    have hu2 : u = String.mk (c.toLower :: cs) := (Option.some.inj hu).symm
    subst hu2
    obtain ⟨h1, h2⟩ := h
    simp only [List.mem_cons, not_or] at h1 h2
    constructor
    · simp only [List.mem_cons, not_or]
      exact ⟨fun e => toLower_ne_of_ne c '\x7b' (Or.inl rfl) (fun e2 => h1.1 e2.symm) e.symm,
        h1.2⟩
    · simp only [List.mem_cons, not_or]
      exact ⟨fun e => toLower_ne_of_ne c '\x7d' (Or.inr rfl) (fun e2 => h2.1 e2.symm) e.symm,
        h2.2⟩

theorem braceBalance_flatMap (f : MethodDescriptorProto → List String) (k : Int)
    (methods : List MethodDescriptorProto)
    (h : ∀ method ∈ methods, braceBalance (f method) = if isUnary method then 0 else k) :
    braceBalance (methods.flatMap f) = k * (nonUnaryCount methods : Int) := by
  induction methods with
  | nil => simp [braceBalance_nil, nonUnaryCount]
  | cons method rest ih =>
    have h1 := h method (List.mem_cons_self _ _)
    have h2 := ih (fun t ht => h t (List.mem_cons_of_mem _ ht))
    rw [List.flatMap_cons, braceBalance_append, h1, h2]
    cases hu : isUnary method
    · simp [nonUnaryCount, hu]
      ring
    · simp [nonUnaryCount, hu]

theorem requestSignature_braceFree (g : Env) (servName : String)
    (method : MethodDescriptorProto) (hS : braceFree servName)
    (hN : braceFree (g.CamelCase method.name))
    (hI : braceFree (g.typeName method.inputType))
    (hO : braceFree (g.typeName method.outputType)) :
    (generateClientRequestSignature g servName method).data.count '\x7b' = 0 ∧
    (generateClientRequestSignature g servName method).data.count '\x7d' = 0 := by
  obtain ⟨s1, s2⟩ := count_of_braceFree _ hS
  obtain ⟨n1, n2⟩ := count_of_braceFree _ hN
  obtain ⟨i1, i2⟩ := count_of_braceFree _ hI
  obtain ⟨o1, o2⟩ := count_of_braceFree _ hO
  cases hc : method.clientStreaming <;> cases hss : method.serverStreaming <;>
    simp only [generateClientRequestSignature, reservedClientName, hc, hss, Bool.or_self,
      Bool.or_true, Bool.or_false, Bool.true_or, Bool.false_or, if_true, if_false,
      Bool.false_eq_true] <;>
    simp only [String.data_append, List.count_append, s1, s2, n1, n2, i1, i2, o1, o2] <;>
    simp

theorem publishSignature_braceFree (g : Env) (servName : String)
    (method : MethodDescriptorProto)
    (hN : braceFree (g.CamelCase method.name))
    (hI : braceFree (g.typeName method.inputType)) :
    (generateClientPublishSignature g servName method).data.count '\x7b' = 0 ∧
    (generateClientPublishSignature g servName method).data.count '\x7d' = 0 := by
  obtain ⟨n1, n2⟩ := count_of_braceFree _ hN
  obtain ⟨i1, i2⟩ := count_of_braceFree _ hI
  cases hc : method.clientStreaming <;>
    simp only [generateClientPublishSignature, reservedClientName, hc, if_true, if_false,
      Bool.false_eq_true] <;>
    simp only [String.data_append, List.count_append, n1, n2, i1, i2] <;>
    simp

theorem serverSignature_braceFree (g : Env) (servName : String)
    (method : MethodDescriptorProto)
    (hN : braceFree (g.CamelCase method.name))
    (hI : braceFree (g.typeName method.inputType))
    (hO : braceFree (g.typeName method.outputType)) :
    (generateServerSignature g servName method).data.count '\x7b' = 0 ∧
    (generateServerSignature g servName method).data.count '\x7d' = 0 := by
  obtain ⟨n1, n2⟩ := count_of_braceFree _ hN
  obtain ⟨i1, i2⟩ := count_of_braceFree _ hI
  obtain ⟨o1, o2⟩ := count_of_braceFree _ hO
  cases hc : method.clientStreaming <;> cases hss : method.serverStreaming <;>
    simp only [generateServerSignature, reservedClientName, hc, hss, Bool.not_true,
      Bool.not_false, Bool.and_self, Bool.and_true, Bool.and_false, Bool.true_and,
      Bool.false_and, if_true, if_false, Bool.false_eq_true, List.nil_append,
      List.cons_append, String.intercalate, String.intercalate.go] <;>
    simp only [String.data_append, List.count_append, n1, n2, i1, i2, o1, o2] <;>
    simp

theorem clientMethodLines_balance (g : Env) (servName u : String)
    (method : MethodDescriptorProto) (hs : unexport servName = some u)
    (hS : braceFree servName)
    (hN : braceFree (g.CamelCase method.name))
    (hI : braceFree (g.typeName method.inputType))
    (hO : braceFree (g.typeName method.outputType)) :
    braceBalance (clientMethodLines g servName method) =
      if isUnary method then 0 else 2 := by
  obtain ⟨u1, u2⟩ := count_of_braceFree _ (braceFree_unexport servName u hs hS)
  obtain ⟨l1, l2⟩ := count_of_braceFree _ (braceFree_ToLower _ hN)
  obtain ⟨o1, o2⟩ := count_of_braceFree _ hO
  obtain ⟨r1, r2⟩ := requestSignature_braceFree g servName method hS hN hI hO
  obtain ⟨p1, p2⟩ := publishSignature_braceFree g servName method hN hI
  cases hu : isUnary method
  · rw [clientMethodLines, linesOf, linesOf,
      requestMethod_streaming g "" servName "" "" u method World.empty hs hu,
      publishMethod_streaming g "" servName "" "" u method World.empty hs hu]
    simp only [appended, Run.world, World.empty, List.length_nil, List.drop_zero,
      List.nil_append, braceBalance, countChar_append, countChar_cons, countChar_nil,
      String.data_append, List.count_append, u1, u2, r1, r2, p1, p2]
    decide
  · rw [clientMethodLines, linesOf, linesOf,
      requestMethod_unary g "" servName "" "" u method World.empty hs hu,
      publishMethod_unary g "" servName "" "" u method World.empty hs hu]
    simp only [appended, Run.world, World.empty, List.length_nil, List.drop_zero,
      List.nil_append, braceBalance, countChar_append, countChar_cons, countChar_nil,
      String.data_append, List.count_append, u1, u2, r1, r2, p1, p2, l1, l2, o1, o2]
    decide

theorem queueSubscribeLines_balance (g : Env) (servName : String)
    (method : MethodDescriptorProto)
    (hS : braceFree servName) (hA : braceFree g.microPkg)
    (hN : braceFree (g.CamelCase method.name))
    (hI : braceFree (g.typeName method.inputType))
    (hO : braceFree (g.typeName method.outputType)) :
    braceBalance (linesOf (generateServerQueueSubscribeMethod g servName method)) =
      if isUnary method then 0 else 1 := by
  obtain ⟨s1, s2⟩ := count_of_braceFree _ hS
  obtain ⟨a1, a2⟩ := count_of_braceFree _ hA
  obtain ⟨n1, n2⟩ := count_of_braceFree _ hN
  obtain ⟨l1, l2⟩ := count_of_braceFree _ (braceFree_ToLower _ hN)
  obtain ⟨i1, i2⟩ := count_of_braceFree _ hI
  obtain ⟨o1, o2⟩ := count_of_braceFree _ hO
  cases hu : isUnary method
  · rw [linesOf, queueSubscribe_streaming g servName method World.empty hu]
    simp only [appended, Run.world, World.empty, List.length_nil, List.drop_zero,
      List.nil_append, braceBalance, countChar_append, countChar_cons, countChar_nil,
      String.data_append, List.count_append, s1, s2, n1, n2]
    decide
  · rw [linesOf, queueSubscribe_unary g servName method World.empty hu]
    simp only [appended, Run.world, World.empty, List.length_nil, List.drop_zero,
      List.nil_append, callbackLines, braceBalance, countChar_append, countChar_cons,
      countChar_nil, String.data_append, List.count_append, s1, s2, n1, n2, a1, a2,
      l1, l2, i1, i2, o1, o2]
    decide

theorem subscribeLines_balance (g : Env) (servName : String)
    (method : MethodDescriptorProto)
    (hS : braceFree servName) (hA : braceFree g.microPkg)
    (hN : braceFree (g.CamelCase method.name))
    (hI : braceFree (g.typeName method.inputType))
    (hO : braceFree (g.typeName method.outputType)) :
    braceBalance (linesOf (generateServerSubscribeMethod g servName method)) =
      if isUnary method then 0 else 1 := by
  obtain ⟨s1, s2⟩ := count_of_braceFree _ hS
  obtain ⟨a1, a2⟩ := count_of_braceFree _ hA
  obtain ⟨n1, n2⟩ := count_of_braceFree _ hN
  obtain ⟨l1, l2⟩ := count_of_braceFree _ (braceFree_ToLower _ hN)
  obtain ⟨i1, i2⟩ := count_of_braceFree _ hI
  obtain ⟨o1, o2⟩ := count_of_braceFree _ hO
  cases hu : isUnary method
  · rw [linesOf, subscribe_streaming g servName method World.empty hu]
    simp only [appended, Run.world, World.empty, List.length_nil, List.drop_zero,
      List.nil_append, braceBalance, countChar_append, countChar_cons, countChar_nil,
      String.data_append, List.count_append, s1, s2, n1, n2]
    decide
  · rw [linesOf, subscribe_unary g servName method World.empty hu]
    simp only [appended, Run.world, World.empty, List.length_nil, List.drop_zero,
      List.nil_append, callbackLines, braceBalance, countChar_append, countChar_cons,
      countChar_nil, String.data_append, List.count_append, s1, s2, n1, n2, a1, a2,
      l1, l2, i1, i2, o1, o2]
    decide

theorem braceBalance_of_braceFree (lines : List String)
    (h : ∀ line ∈ lines, braceFree line) : braceBalance lines = 0 := by
  induction lines with
  | nil => rfl
  | cons line rest ih =>
    obtain ⟨h1, h2⟩ := count_of_braceFree line (h line (List.mem_cons_self _ _))
    have h3 := ih (fun t ht => h t (List.mem_cons_of_mem _ ht))
    simp only [braceBalance, countChar_cons, h1, h2] at h3 ⊢
    simpa using h3

theorem braceFree_of_counts (s : String)
    (h : s.data.count '\x7b' = 0 ∧ s.data.count '\x7d' = 0) : braceFree s :=
  ⟨List.count_eq_zero.mp h.1, List.count_eq_zero.mp h.2⟩

theorem interfaceLines_balance (g : Env) (path servName : String)
    (methods : List MethodDescriptorProto) (i : Nat)
    (hS : braceFree servName)
    (hmeth : ∀ method ∈ methods, braceFree (g.CamelCase method.name) ∧
      braceFree (g.typeName method.inputType) ∧ braceFree (g.typeName method.outputType))
    (hcom : ∀ p : String, ∀ line ∈ g.comments p, braceFree line) :
    braceBalance (interfaceLines g path servName methods i) = 0 := by
  induction methods generalizing i with
  | nil => rfl
  | cons method rest ih =>
    obtain ⟨hN, hI, hO⟩ := hmeth method (List.mem_cons_self _ _)
    have h1 := ih (i + 1) (fun t ht => hmeth t (List.mem_cons_of_mem _ ht))
    have h2 := braceBalance_of_braceFree _ (hcom (path ++ ",2," ++ toString i))
    have h3 : braceBalance
        [ generateClientRequestSignature g servName method,
          generateClientPublishSignature g servName method ] = 0 := by
      apply braceBalance_of_braceFree
      intro line hl
      simp only [List.mem_cons, List.mem_singleton, List.not_mem_nil, or_false] at hl
      rcases hl with hl | hl
      · rw [hl]
        exact braceFree_of_counts _ (requestSignature_braceFree g servName method hS hN hI hO)
      · rw [hl]
        exact braceFree_of_counts _ (publishSignature_braceFree g servName method hN hI)
    simp only [interfaceLines, braceBalance_append, h1, h2, h3]
    rfl

theorem handlerSectionLines_balance (g : Env) (service : ServiceDescriptorProto)
    (hS : braceFree (g.CamelCase service.name))
    (hmeth : ∀ method ∈ service.method, braceFree (g.CamelCase method.name) ∧
      braceFree (g.typeName method.inputType) ∧ braceFree (g.typeName method.outputType)) :
    braceBalance (handlerSectionLines g service) = 0 := by
  obtain ⟨s1, s2⟩ := count_of_braceFree _ hS
  have h1 : braceBalance
      (service.method.map (generateServerSignature g (g.CamelCase service.name))) = 0 := by
    apply braceBalance_of_braceFree
    intro line hl
    simp only [List.mem_map] at hl
    obtain ⟨method, hm, hl⟩ := hl
    obtain ⟨hN, hI, hO⟩ := hmeth method hm
    rw [← hl]
    exact braceFree_of_counts _ (serverSignature_braceFree g _ method hN hI hO)
  simp only [handlerSectionLines, braceBalance_append, h1]
  simp only [braceBalance, countChar_cons, countChar_nil, String.data_append,
    List.count_append, s1, s2]
  decide

theorem wiringHeadLines_balance (g : Env) (service : ServiceDescriptorProto)
    (kind : String) (hS : braceFree (g.CamelCase service.name))
    (hA : braceFree g.microPkg) (hK : braceFree kind) :
    braceBalance (wiringHeadLines g service kind) = 0 := by
  obtain ⟨s1, s2⟩ := count_of_braceFree _ hS
  obtain ⟨a1, a2⟩ := count_of_braceFree _ hA
  obtain ⟨k1, k2⟩ := count_of_braceFree _ hK
  simp only [wiringHeadLines, braceBalance, countChar_cons, countChar_nil,
    String.data_append, List.count_append, s1, s2, a1, a2, k1, k2]
  decide

theorem clientSectionLines_balance (g : Env) (service : ServiceDescriptorProto)
    (index : Nat) (u : String)
    (hs : unexport (g.CamelCase service.name) = some u)
    (hS : braceFree (g.CamelCase service.name)) (hA : braceFree g.microPkg)
    (hmeth : ∀ method ∈ service.method, braceFree (g.CamelCase method.name) ∧
      braceFree (g.typeName method.inputType) ∧ braceFree (g.typeName method.outputType))
    (hcom : ∀ p : String, ∀ line ∈ g.comments p, braceFree line) :
    braceBalance (clientSectionLines g service index u) =
      2 * (nonUnaryCount service.method : Int) := by
  obtain ⟨s1, s2⟩ := count_of_braceFree _ hS
  obtain ⟨a1, a2⟩ := count_of_braceFree _ hA
  obtain ⟨u1, u2⟩ := count_of_braceFree _ (braceFree_unexport _ u hs hS)
  have h1 := interfaceLines_balance g ("6," ++ toString index) (g.CamelCase service.name)
    service.method 0 hS hmeth hcom
  have h2 := braceBalance_flatMap (clientMethodLines g (g.CamelCase service.name)) 2
    service.method (fun method hm =>
      clientMethodLines_balance g _ u method hs hS (hmeth method hm).1
        (hmeth method hm).2.1 (hmeth method hm).2.2)
  simp only [clientSectionLines, braceBalance_append, h1, h2]
  simp only [braceBalance, countChar_cons, countChar_nil, String.data_append,
    List.count_append, s1, s2, a1, a2, u1, u2]
  simp

/-! ## Brace balance of a service -/

/-- C17: for every service whose CamelCased names (of the service, non-empty, and of
the methods), resolved type names and comment lines contain no brace character,
the package alias containing none either, the number of `{` minus the number of `}`
in the text printed by `generateService` is 4 times the number of methods that are
not unary; in particular the text is brace-balanced exactly when every method of the
service is unary. -/
theorem brace_balance_of_service (g : Env) (file : FileDescriptor)
    (service : ServiceDescriptorProto) (index : Nat) (w : World)
    (hne : g.CamelCase service.name ≠ "")
    (hS : braceFree (g.CamelCase service.name)) (hA : braceFree g.microPkg)
    (hmeth : ∀ method ∈ service.method, braceFree (g.CamelCase method.name) ∧
      braceFree (g.typeName method.inputType) ∧ braceFree (g.typeName method.outputType))
    (hcom : ∀ p : String, ∀ line ∈ g.comments p, braceFree line) :
    braceBalance (appended w (generateService g file service index w)) =
        4 * (nonUnaryCount service.method : Int) ∧
    (braceBalance (appended w (generateService g file service index w)) = 0 ↔
      ∀ method ∈ service.method, isUnary method = true) := by
  obtain ⟨u, hu⟩ := unexport_of_ne_empty _ hne
  have h1 := clientSectionLines_balance g service index u hu hS hA hmeth hcom
  have h2 := handlerSectionLines_balance g service hS hmeth
  have h3 := wiringHeadLines_balance g service "QueueSubscribe" hS hA (by decide)
  have h4 := wiringHeadLines_balance g service "Subscribe" hS hA (by decide)
  have h5 := braceBalance_flatMap
    (fun method => linesOf
      (generateServerQueueSubscribeMethod g (g.CamelCase service.name) method)) 1
    service.method (fun method hm =>
      queueSubscribeLines_balance g _ method hS hA (hmeth method hm).1
        (hmeth method hm).2.1 (hmeth method hm).2.2)
  have h6 := braceBalance_flatMap
    (fun method => linesOf
      (generateServerSubscribeMethod g (g.CamelCase service.name) method)) 1
    service.method (fun method hm =>
      subscribeLines_balance g _ method hS hA (hmeth method hm).1
        (hmeth method hm).2.1 (hmeth method hm).2.2)
  have hb : braceBalance (appended w (generateService g file service index w)) =
      4 * (nonUnaryCount service.method : Int) := by
    rw [generateService_done g file service index w u hu, appended_done]
    simp only [serviceLines, braceBalance_append, h1, h2, h3, h4, h5, h6]
    ring
  refine ⟨hb, ?_⟩
  rw [hb]
  constructor
  · intro h0 method hm
    have h7 : nonUnaryCount service.method = 0 := by omega
    simp only [nonUnaryCount, List.length_eq_zero, List.filter_eq_nil_iff] at h7
    have h8 := h7 method hm
    simpa using h8
  · intro h0
    have h7 : nonUnaryCount service.method = 0 := by
      simp only [nonUnaryCount, List.length_eq_zero, List.filter_eq_nil_iff]
      intro method hm
      simp [h0 method hm]
    rw [h7]
    rfl

/-- Witness of C17: the service `RouteGuide`, with one unary method and three
methods that are not unary: twelve more `{` than `}`. -/
theorem brace_balance_of_service_witness :
    protocEnv.CamelCase routeGuide.name ≠ "" ∧
    braceFree (protocEnv.CamelCase routeGuide.name) ∧ braceFree protocEnv.microPkg ∧
    (∀ method ∈ routeGuide.method, braceFree (protocEnv.CamelCase method.name) ∧
      braceFree (protocEnv.typeName method.inputType) ∧
      braceFree (protocEnv.typeName method.outputType)) ∧
    (∀ p : String, ∀ line ∈ protocEnv.comments p, braceFree line) ∧
    nonUnaryCount routeGuide.method = 3 ∧
    braceBalance (appended World.empty
        (generateService protocEnv routeGuideFile routeGuide 0 World.empty)) =
      4 * (nonUnaryCount routeGuide.method : Int) :=
  ⟨by decide, by decide, by decide, by decide,
    fun _ _ hl => absurd hl (List.not_mem_nil _), by decide,
    (brace_balance_of_service protocEnv routeGuideFile routeGuide 0 World.empty
      (by decide) (by decide) (by decide) (by decide)
      (fun _ _ hl => absurd hl (List.not_mem_nil _))).1⟩

/-! ## The qualifier of the runtime package -/

theorem mentions_of_data (needle line : String) (before after : List Char)
    (h : line.data = before ++ (needle.data ++ after)) : mentions needle line = true := by
  unfold mentions
  rw [List.any_eq_true]
  refine ⟨needle.data ++ after, ?_, ?_⟩
  · rw [List.mem_tails, h]
    exact List.suffix_append _ _
  · rw [List.isPrefixOf_iff_prefix]
    exact List.prefix_append _ _

theorem refersThrough_of_data (q member line : String) (before after : List Char)
    (hm : member ∈ runtimeMembers)
    (h : line.data = before ++ ((q ++ "." ++ member).data ++ after)) :
    refersThrough q line = true := by
  unfold refersThrough
  rw [List.any_eq_true]
  exact ⟨member, hm, mentions_of_data _ _ before after h⟩

theorem serverSignature_shape (g : Env) (servName : String)
    (method : MethodDescriptorProto) :
    ∃ rest : String,
      generateServerSignature g servName method =
        "type " ++ g.CamelCase method.name ++ "Handler func(*micro.Context" ++ rest := by
  cases hc : method.clientStreaming <;> cases hss : method.serverStreaming
  · refine ⟨", *" ++ g.typeName method.inputType ++ ", *" ++
      g.typeName method.outputType ++ ") error", ?_⟩
    simp [generateServerSignature, reservedClientName, hc, hss, String.intercalate,
      String.intercalate.go, String.ext_iff, List.append_assoc]
  · refine ⟨", *" ++ g.typeName method.inputType ++ ") error", ?_⟩
    simp [generateServerSignature, reservedClientName, hc, hss, String.intercalate,
      String.intercalate.go, String.ext_iff, List.append_assoc]
  · refine ⟨") error", ?_⟩
    simp [generateServerSignature, reservedClientName, hc, hss, String.intercalate,
      String.intercalate.go, String.ext_iff, List.append_assoc]
  · refine ⟨") error", ?_⟩
    simp [generateServerSignature, reservedClientName, hc, hss, String.intercalate,
      String.intercalate.go, String.ext_iff, List.append_assoc]

theorem aliasReferences_sound (g : Env) (service : ServiceDescriptorProto) (index : Nat)
    (u line : String) (h : line ∈ aliasReferences g service) :
    line ∈ serviceLines g service index u ∧ refersThrough g.microPkg line = true := by
  simp only [aliasReferences, List.mem_append, List.mem_cons, List.not_mem_nil, or_false,
    List.mem_flatMap, List.mem_filter] at h
  rcases h with (h | h | h | h | h | h) | ⟨method, ⟨hm, hu⟩, h⟩
  · subst h
    refine ⟨?_, refersThrough_of_data _ "Client" _ "c ".data [] (by decide) ?_⟩
    · simp [serviceLines, clientSectionLines, wiringHeadLines, String.ext_iff,
        List.append_assoc]
    · simp [String.data_append, List.append_assoc]
  · subst h
    refine ⟨?_, refersThrough_of_data _ "Client" _
      ("func New" ++ g.CamelCase service.name ++ "Client (prefix string, c ").data
      (") " ++ g.CamelCase service.name ++ "Client \x7b").data (by decide) ?_⟩
    · simp [serviceLines, clientSectionLines, wiringHeadLines, String.ext_iff,
        List.append_assoc]
    · simp [String.data_append, List.append_assoc]
  · subst h
    refine ⟨?_, refersThrough_of_data _ "Micro" _ "m *".data [] (by decide) ?_⟩
    · simp [serviceLines, clientSectionLines, wiringHeadLines, String.ext_iff,
        List.append_assoc]
    · simp [String.data_append, List.append_assoc]
  · subst h
    refine ⟨?_, refersThrough_of_data _ "Micro" _
      ("func New" ++ g.CamelCase service.name ++
        "QueueSubscribe (prefix string, m *").data
      (") *" ++ g.CamelCase service.name ++ "QueueSubscribe \x7b").data (by decide) ?_⟩
    · simp [serviceLines, clientSectionLines, wiringHeadLines, String.ext_iff,
        List.append_assoc]
    · simp [String.data_append, List.append_assoc]
  · subst h
    refine ⟨?_, refersThrough_of_data _ "Micro" _ "m *".data [] (by decide) ?_⟩
    · simp [serviceLines, clientSectionLines, wiringHeadLines, String.ext_iff,
        List.append_assoc]
    · simp [String.data_append, List.append_assoc]
  · subst h
    refine ⟨?_, refersThrough_of_data _ "Micro" _
      ("func New" ++ g.CamelCase service.name ++ "Subscribe (prefix string, m *").data
      (") *" ++ g.CamelCase service.name ++ "Subscribe \x7b").data (by decide) ?_⟩
    · simp [serviceLines, clientSectionLines, wiringHeadLines, String.ext_iff,
        List.append_assoc]
    · simp [String.data_append, List.append_assoc]
  · rcases h with h | h
    · subst h
      refine ⟨?_, refersThrough_of_data _ "Context" _
        "dq.m.QueueSubscribe(subj, subj, func(ctx *".data ") error \x7b".data
        (by decide) ?_⟩
      · have hq : "dq.m.QueueSubscribe(subj, subj, func(ctx *" ++ g.microPkg ++
            ".Context) error \x7b" ∈
            service.method.flatMap (fun method => linesOf
              (generateServerQueueSubscribeMethod g (g.CamelCase service.name) method)) := by
          refine List.mem_flatMap.mpr ⟨method, hm, ?_⟩
          rw [linesOf, queueSubscribe_unary g _ method World.empty hu]
          simp [appended, Run.world, World.empty]
        simp only [serviceLines, List.mem_append]
        exact Or.inl (Or.inl (Or.inr hq))
      · simp [String.data_append, List.append_assoc]
    · subst h
      refine ⟨?_, refersThrough_of_data _ "Context" _
        "ds.m.Subscribe(subj, func(ctx *".data ") error \x7b".data (by decide) ?_⟩
      · have hsb : "ds.m.Subscribe(subj, func(ctx *" ++ g.microPkg ++
            ".Context) error \x7b" ∈
            service.method.flatMap (fun method => linesOf
              (generateServerSubscribeMethod g (g.CamelCase service.name) method)) := by
          refine List.mem_flatMap.mpr ⟨method, hm, ?_⟩
          rw [linesOf, subscribe_unary g _ method World.empty hu]
          simp [appended, Run.world, World.empty]
        simp only [serviceLines, List.mem_append]
        exact Or.inr hsb
      · simp [String.data_append, List.append_assoc]

theorem literalReferences_sound (g : Env) (service : ServiceDescriptorProto) (index : Nat)
    (u line : String) (hs : unexport (g.CamelCase service.name) = some u)
    (h : line ∈ literalReferences g service) :
    line ∈ serviceLines g service index u ∧ refersThrough "micro" line = true := by
  simp only [literalReferences, List.mem_append, List.mem_map, List.mem_filter] at h
  rcases h with ⟨method, hm, h⟩ | ⟨method, ⟨hm, hu⟩, h⟩
  · subst h
    constructor
    · simp only [serviceLines, handlerSectionLines, List.mem_append, List.mem_map]
      exact Or.inl (Or.inl (Or.inl (Or.inl (Or.inr (Or.inl (Or.inr ⟨method, hm, rfl⟩))))))
    · obtain ⟨rest, hrest⟩ := serverSignature_shape g (g.CamelCase service.name) method
      refine refersThrough_of_data _ "Context" _
        ("type " ++ g.CamelCase method.name ++ "Handler func(*").data rest.data
        (by decide) ?_
      rw [hrest]
      simp [String.data_append, List.append_assoc]
  · subst h
    constructor
    · have hr : "err := c.c.Request(c.prefix+\"." ++ ToLower (g.CamelCase method.name) ++
          "\", req, res, micro.DefaultTimeout)" ∈
          service.method.flatMap (clientMethodLines g (g.CamelCase service.name)) := by
        refine List.mem_flatMap.mpr ⟨method, hm, ?_⟩
        rw [clientMethodLines, linesOf,
          requestMethod_unary g "" _ "" "" u method World.empty hs hu]
        simp [appended, Run.world, World.empty]
      simp only [serviceLines, clientSectionLines, List.mem_append]
      exact Or.inl (Or.inl (Or.inl (Or.inl (Or.inl (Or.inr hr)))))
    · refine refersThrough_of_data _ "DefaultTimeout" _
        ("err := c.c.Request(c.prefix+\"." ++ ToLower (g.CamelCase method.name) ++
          "\", req, res, ").data ")".data (by decide) ?_
      simp [String.data_append, List.append_assoc]

theorem runtimeReferences_qualifier (g : Env) (service : ServiceDescriptorProto)
    (r : String × String) (h : r ∈ runtimeReferences g service) :
    (r.1 = g.microPkg ∧ r.2 ∈ aliasReferences g service) ∨
      (r.1 = "micro" ∧ r.2 ∈ literalReferences g service) := by
  simp only [runtimeReferences, List.mem_append, List.mem_map] at h
  rcases h with ⟨line, hl, h⟩ | ⟨line, hl, h⟩
  · subst h
    exact Or.inl ⟨rfl, hl⟩
  · subst h
    exact Or.inr ⟨rfl, hl⟩

theorem sameQualifier_iff (g : Env) (service : ServiceDescriptorProto) :
    sameQualifier (runtimeReferences g service) ↔
      g.microPkg = "micro" ∨ service.method = [] := by
  constructor
  · intro h
    cases hm : service.method with
    | nil => exact Or.inr rfl
    | cons method rest =>
      refine Or.inl (h (g.microPkg, "c " ++ g.microPkg ++ ".Client") ?_
        ("micro", generateServerSignature g (g.CamelCase service.name) method) ?_)
      · simp [runtimeReferences, aliasReferences]
      · simp [runtimeReferences, literalReferences, hm]
  · intro h r1 h1 r2 h2
    rcases h with h | h
    · have e : ∀ r ∈ runtimeReferences g service, r.1 = "micro" := by
        intro r hr
        rcases runtimeReferences_qualifier g service r hr with ⟨h3, _⟩ | ⟨h3, _⟩
        · rw [h3, h]
        · exact h3
      rw [e r1 h1, e r2 h2]
    · have e : ∀ r ∈ runtimeReferences g service, r.1 = g.microPkg := by
        intro r hr
        rcases runtimeReferences_qualifier g service r hr with ⟨h3, _⟩ | ⟨_, h4⟩
        · exact h3
        · simp [literalReferences, h] at h4
      rw [e r1 h1, e r2 h2]

/-- C19, counterexample: the service `Empty`, which declares no method, printed with
the alias `micro1`: the alias is not `micro`, yet every line of the text that refers
to the runtime package does so through `micro1` (the two struct fields of the
wirings, the field of the client and the three constructors), no line refers to it
through `micro`, and the references use one and the same qualifier. -/
theorem empty_service_refers_through_alias_only :
    "micro1" ≠ "micro" ∧ emptyService.method = [] ∧
    generateService (withAlias protocEnv "micro1") emptyServiceFile emptyService 0
        World.empty =
      Run.done (World.mk
        [ "", "// Client API for Empty service", "",
          "type EmptyClient interface \x7b", "\x7d", "",
          "type emptyClient struct \x7b", "c micro1.Client", "prefix string", "\x7d", "",
          "func NewEmptyClient (prefix string, c micro1.Client) EmptyClient \x7b",
          "return &emptyClient\x7b", "c: c,", "prefix: prefix,", "\x7d", "\x7d", "",
          "// Server API for Empty service", "", "",
          "type EmptyQueueSubscribe struct\x7b", "m *micro1.Micro", "prefix string",
          "\x7d", "",
          "func NewEmptyQueueSubscribe (prefix string, m *micro1.Micro) *EmptyQueueSubscribe \x7b",
          "return &EmptyQueueSubscribe\x7b", "m: m,", "prefix: prefix,", "\x7d", "\x7d", "",
          "type EmptySubscribe struct\x7b", "m *micro1.Micro", "prefix string", "\x7d", "",
          "func NewEmptySubscribe (prefix string, m *micro1.Micro) *EmptySubscribe \x7b",
          "return &EmptySubscribe\x7b", "m: m,", "prefix: prefix,", "\x7d", "\x7d", "" ]
        []) ∧
    (appended World.empty (generateService (withAlias protocEnv "micro1") emptyServiceFile
        emptyService 0 World.empty)).filter (refersThrough "micro1") =
      [ "c micro1.Client",
        "func NewEmptyClient (prefix string, c micro1.Client) EmptyClient \x7b",
        "m *micro1.Micro",
        "func NewEmptyQueueSubscribe (prefix string, m *micro1.Micro) *EmptyQueueSubscribe \x7b",
        "m *micro1.Micro",
        "func NewEmptySubscribe (prefix string, m *micro1.Micro) *EmptySubscribe \x7b" ] ∧
    (appended World.empty (generateService (withAlias protocEnv "micro1") emptyServiceFile
        emptyService 0 World.empty)).filter (refersThrough "micro") = [] ∧
    runtimeReferences (withAlias protocEnv "micro1") emptyService =
      [ ("micro1", "c micro1.Client"),
        ("micro1", "func NewEmptyClient (prefix string, c micro1.Client) EmptyClient \x7b"),
        ("micro1", "m *micro1.Micro"),
        ("micro1",
          "func NewEmptyQueueSubscribe (prefix string, m *micro1.Micro) *EmptyQueueSubscribe \x7b"),
        ("micro1", "m *micro1.Micro"),
        ("micro1",
          "func NewEmptySubscribe (prefix string, m *micro1.Micro) *EmptySubscribe \x7b") ] ∧
    sameQualifier (runtimeReferences (withAlias protocEnv "micro1") emptyService) ∧
    ¬ (sameQualifier (runtimeReferences (withAlias protocEnv "micro1") emptyService) ↔
      "micro1" = "micro") := by
  have hs : sameQualifier (runtimeReferences (withAlias protocEnv "micro1") emptyService) :=
    (sameQualifier_iff (withAlias protocEnv "micro1") emptyService).mpr (Or.inr rfl)
  have ht : generateService (withAlias protocEnv "micro1") emptyServiceFile emptyService 0
      World.empty = Run.done (World.mk
        [ "", "// Client API for Empty service", "",
          "type EmptyClient interface \x7b", "\x7d", "",
          "type emptyClient struct \x7b", "c micro1.Client", "prefix string", "\x7d", "",
          "func NewEmptyClient (prefix string, c micro1.Client) EmptyClient \x7b",
          "return &emptyClient\x7b", "c: c,", "prefix: prefix,", "\x7d", "\x7d", "",
          "// Server API for Empty service", "", "",
          "type EmptyQueueSubscribe struct\x7b", "m *micro1.Micro", "prefix string",
          "\x7d", "",
          "func NewEmptyQueueSubscribe (prefix string, m *micro1.Micro) *EmptyQueueSubscribe \x7b",
          "return &EmptyQueueSubscribe\x7b", "m: m,", "prefix: prefix,", "\x7d", "\x7d", "",
          "type EmptySubscribe struct\x7b", "m *micro1.Micro", "prefix string", "\x7d", "",
          "func NewEmptySubscribe (prefix string, m *micro1.Micro) *EmptySubscribe \x7b",
          "return &EmptySubscribe\x7b", "m: m,", "prefix: prefix,", "\x7d", "\x7d", "" ]
        []) := by
    decide
  refine ⟨by decide, rfl, ht, ?_, ?_, by decide, hs, ?_⟩
  · rw [ht]
    decide
  · rw [ht]
    decide
  · intro h
    exact absurd (h.mp hs) (by decide)

/-- C19, amended: for every package alias `a` (the environment `withAlias g a`) and
every service, the handler-type line returned by `generateServerSignature` and the
timeout argument of the unary client Request body do not depend on `a`: they use the
literal qualifier `micro` (`*micro.Context`, `micro.DefaultTimeout`); the struct
fields, the constructors and the parameter type of the callback use `a`.  Every
reference listed in `runtimeReferences` is a line of the text printed for the service
and holds its qualifier, which is `a` or `micro`.  Hence all references of the text
to the runtime package use one and the same qualifier if and only if `a` is `micro`
or the service declares no method. -/
theorem runtime_qualifier_sites (g : Env) (a : String) (file : FileDescriptor)
    (service : ServiceDescriptorProto) (index : Nat)
    (reqServ serviceDescVar descExpr : String) (w : World)
    (hne : g.CamelCase service.name ≠ "") :
    (∀ (b : String) (method : MethodDescriptorProto),
      generateServerSignature (withAlias g a) (g.CamelCase service.name) method =
        generateServerSignature (withAlias g b) (g.CamelCase service.name) method) ∧
    (∀ method : MethodDescriptorProto, ∃ rest : String,
      generateServerSignature (withAlias g a) (g.CamelCase service.name) method =
        "type " ++ g.CamelCase method.name ++ "Handler func(*micro.Context" ++ rest) ∧
    (∀ method : MethodDescriptorProto, isUnary method = true →
      (appended w (generateClientRequestMethod (withAlias g a) reqServ
          (g.CamelCase service.name) serviceDescVar method descExpr w))[2]? =
        some ("err := c.c.Request(" ++
          subjectExpr "c" (ToLower (g.CamelCase method.name)) ++
          ", req, res, micro.DefaultTimeout)") ∧
      (appended w (generateServerQueueSubscribeMethod (withAlias g a)
          (g.CamelCase service.name) method w))[2]? =
        some ("dq.m.QueueSubscribe(subj, subj, func(ctx *" ++ a ++
          ".Context) error \x7b") ∧
      (appended w (generateServerSubscribeMethod (withAlias g a)
          (g.CamelCase service.name) method w))[2]? =
        some ("ds.m.Subscribe(subj, func(ctx *" ++ a ++ ".Context) error \x7b")) ∧
    (∀ line ∈
        [ "c " ++ a ++ ".Client",
          "func New" ++ g.CamelCase service.name ++ "Client (prefix string, c " ++ a ++
            ".Client) " ++ g.CamelCase service.name ++ "Client \x7b",
          "m *" ++ a ++ ".Micro",
          "func New" ++ g.CamelCase service.name ++ "QueueSubscribe (prefix string, m *" ++
            a ++ ".Micro) *" ++ g.CamelCase service.name ++ "QueueSubscribe \x7b",
          "func New" ++ g.CamelCase service.name ++ "Subscribe (prefix string, m *" ++
            a ++ ".Micro) *" ++ g.CamelCase service.name ++ "Subscribe \x7b" ],
      (a, line) ∈ runtimeReferences (withAlias g a) service) ∧
    (∀ method ∈ service.method,
      ("micro", generateServerSignature (withAlias g a) (g.CamelCase service.name) method) ∈
        runtimeReferences (withAlias g a) service) ∧
    (∀ r ∈ runtimeReferences (withAlias g a) service,
      r.2 ∈ appended w (generateService (withAlias g a) file service index w) ∧
      refersThrough r.1 r.2 = true ∧ (r.1 = a ∨ r.1 = "micro")) ∧
    (sameQualifier (runtimeReferences (withAlias g a) service) ↔
      a = "micro" ∨ service.method = []) := by
  obtain ⟨u, hu1⟩ := unexport_of_ne_empty _ hne
  have hua : unexport ((withAlias g a).CamelCase service.name) = some u := hu1
  refine ⟨fun _ _ => rfl, ?_, ?_, ?_, ?_, ?_, ?_⟩
  · intro method
    exact serverSignature_shape (withAlias g a) (g.CamelCase service.name) method
  · intro method hu
    refine ⟨?_, ?_, ?_⟩
    · rw [requestMethod_unary (withAlias g a) reqServ _ serviceDescVar descExpr u method w
        hu1 hu, appended_done]
      simp [subjectExpr, String.ext_iff, List.append_assoc, withAlias]
    · rw [queueSubscribe_unary (withAlias g a) _ method w hu, appended_done]
      simp [withAlias]
    · rw [subscribe_unary (withAlias g a) _ method w hu, appended_done]
      simp [withAlias]
  · intro line hl
    simp only [List.mem_cons, List.mem_singleton, List.not_mem_nil, or_false] at hl
    rcases hl with hl | hl | hl | hl | hl <;> subst hl <;>
      simp [runtimeReferences, aliasReferences, withAlias]
  · intro method hm
    simp only [runtimeReferences, literalReferences, List.mem_append, List.mem_map]
    exact Or.inr ⟨_, Or.inl ⟨method, hm, rfl⟩, rfl⟩
  · intro r hr
    rw [generateService_done (withAlias g a) file service index w u hua, appended_done]
    rcases runtimeReferences_qualifier (withAlias g a) service r hr with ⟨h1, h2⟩ | ⟨h1, h2⟩
    · obtain ⟨h3, h4⟩ := aliasReferences_sound (withAlias g a) service index u r.2 h2
      refine ⟨h3, ?_, Or.inl h1⟩
      rw [h1]
      exact h4
    · obtain ⟨h3, h4⟩ := literalReferences_sound (withAlias g a) service index u r.2 hua h2
      refine ⟨h3, ?_, Or.inr h1⟩
      rw [h1]
      exact h4
  · exact sameQualifier_iff (withAlias g a) service

/-- Witness of C19, amended: the alias `micro1` and the service `Greeter`, which has
a method: its references do not all use the same qualifier. -/
theorem runtime_qualifier_sites_witness :
    protocEnv.CamelCase greeter.name ≠ "" ∧
    (sameQualifier (runtimeReferences (withAlias protocEnv "micro1") greeter) ↔
      "micro1" = "micro" ∨ greeter.method = []) ∧
    ¬ sameQualifier (runtimeReferences (withAlias protocEnv "micro1") greeter) := by
  have h := (runtime_qualifier_sites protocEnv "micro1" greeterFile greeter 0 "helloworld"
    "_Greeter_serviceDesc" "" World.empty (by decide)).2.2.2.2.2.2
  refine ⟨by decide, h, ?_⟩
  intro hs
  exact absurd (h.mp hs) (by decide)

end Micro
